import Mathlib

/-!
The s3270 protocol driver of xk6-tn3270.

A shallow embedding of `client.go`: the client record, the subprocess seen
through its two pipes, and the command wrappers built on `sendCommand`.

Conventions of the embedding

* A Go `string` is the list of its code points (`GoString`); the strings that
  reach this code are valid UTF-8, and `len` counts UTF-8 bytes (`goLen`).
* A Go `error` is its `Error()` text; `%w` wrapping is concatenation.
* Go `int` arguments are `Int`.
* The subprocess is scripted: `World.out` holds what it will still deliver on
  its standard output, `World.written` what the client has written so far on
  its standard input. Once `out` holds no further line, a read reports an error
  when the output is closed and blocks for ever when it is open (`World.outOpen`):
  the call then never returns (`Exit.hang`).
* Time is the reading `World.now` of the monotonic clock, in nanoseconds; it
  moves only in the polling wait, by the scripted latency of each screen fetch
  and by the 100 ms of each sleep. The context of the caller is done from the
  instant `World.cancelAt` on.
* `filepath.Clean`, `filepath.Dir` and `strconv.Quote` are functions of the Go
  library, modelled here from their definitions (paths as on Unix).
-/

namespace Tn3270

/-! ## Strings -/

/-- A Go string, as the sequence of its code points. -/
abbrev GoString := List Char

/-- The text of a Go `error` value. -/
abbrev GoError := List Char

/-- Go `len(s)`: the number of bytes of the UTF-8 encoding. -/
def goLen (s : GoString) : Nat := (s.map Char.utf8Size).sum

/-- Go `strings.HasPrefix`. -/
def HasPrefix (s pre : GoString) : Bool := pre.isPrefixOf s

/-- Go `strings.HasSuffix`. -/
def HasSuffix (s suf : GoString) : Bool := suf.isSuffixOf s

/-- Go `strings.TrimPrefix`: drops `pre` once when `s` starts with it. -/
def TrimPrefix (s pre : GoString) : GoString :=
  if HasPrefix s pre then s.drop pre.length else s

/-- Go `strings.TrimSuffix`: drops `suf` once when `s` ends with it. -/
def TrimSuffix (s suf : GoString) : GoString :=
  if HasSuffix s suf then s.take (s.length - suf.length) else s

/-- Go `strings.TrimRight`: drops every trailing code point that occurs in `cutset`. -/
def TrimRight (s cutset : GoString) : GoString :=
  (s.reverse.dropWhile (fun ch => cutset.contains ch)).reverse

/-- Go `strings.Contains`. -/
def Contains : GoString → GoString → Bool
  | [], sub => sub.isEmpty
  | ch :: rest, sub => sub.isPrefixOf (ch :: rest) || Contains rest sub

/-- The verb `%d` of `fmt` applied to an `int`. -/
def fmtInt : Int → GoString
  | Int.ofNat n => Nat.toDigits 10 n
  | Int.negSucc n => '-' :: Nat.toDigits 10 (n + 1)

/-! ## The client and the world around it -/

/-- The `*exec.Cmd` held in `Client.cmd`; `process` tells whether `cmd.Process` is
non-nil, which is so once `Start` has succeeded. -/
structure Cmd where
  process : Bool := false
deriving DecidableEq, Repr

/-- The fields of `Client` (the mutex apart). A pipe field is `true` when it is
non-nil. The defaults are the zero value `&Client{}`. -/
structure Client where
  vu : Bool := false
  cmd : Option Cmd := none
  stdin : Bool := false
  stdout : Bool := false
  connected : Bool := false
deriving DecidableEq, Repr

/-- The operating system and the subprocess, as the client sees them. -/
structure World where
  /-- every byte written so far on the subprocess's standard input -/
  written : GoString := []
  /-- what the subprocess will still deliver on its standard output -/
  out : GoString := []
  /-- the number of `ReadString` calls made on the output reader -/
  reads : Nat := 0
  /-- the error a write on the input pipe reports, if it fails -/
  writeErr : Option GoError := none
  /-- whether the subprocess is still alive, its output open, once `out` is used
  up: a read that finds no newline then blocks for ever -/
  outOpen : Bool := true
  /-- the error a read reports when the output is closed and holds no further
  newline -/
  readErr : GoError := ['E', 'O', 'F']
  /-- the error `StdinPipe` reports, if it fails -/
  stdinPipeErr : Option GoError := none
  /-- the error `StdoutPipe` reports, if it fails -/
  stdoutPipeErr : Option GoError := none
  /-- the error `Start` reports, if it fails -/
  startErr : Option GoError := none
  /-- the number of `exec.Command` values built -/
  commands : Nat := 0
  /-- the number of processes launched -/
  spawns : Nat := 0
  /-- the number of `Close` calls on the input pipe -/
  closes : Nat := 0
  /-- the number of `Kill` calls -/
  kills : Nat := 0
  /-- the number of `Wait` calls -/
  waits : Nat := 0
  /-- the errors `Close`, `Kill` and `Wait` report, if any; `cleanup` discards them -/
  closeErr : Option GoError := none
  killErr : Option GoError := none
  waitErr : Option GoError := none
  /-- the reading of the monotonic clock, in nanoseconds -/
  now : Int := 0
  /-- how long each of the coming screen fetches of the polling wait takes, in
  nanoseconds; a fetch beyond the end of the list takes no time -/
  latency : List Nat := []
  /-- the instant at which the context of the caller is cancelled, if ever -/
  cancelAt : Option Int := none
  /-- the error `ctx.Err()` reports once the context is done -/
  ctxErr : GoError := "context canceled".toList
  /-- the error `os.MkdirAll` reports, if it fails -/
  mkdirErr : Option GoError := none
  /-- the error `os.WriteFile` reports, if it fails -/
  writeFileErr : Option GoError := none
  /-- the directories made by `os.MkdirAll`, in order -/
  dirs : List GoString := []
  /-- the files written by `os.WriteFile`, in order, each with its content -/
  files : List (GoString × GoString) := []
deriving DecidableEq, Repr

/-- How a call ends: it returns, it panics (a nil dereference), it never returns
because it blocks in a read on a subprocess that stays silent, or the model ran out
of fuel. -/
inductive Exit (α : Type) where
  | ret (a : α)
  | panic
  | hang
  | stuck
deriving DecidableEq, Repr

/-- The state after a call together with the way it ended. -/
structure Out (α : Type) where
  client : Client
  world : World
  exit : Exit α
deriving DecidableEq, Repr

/-! ## sendCommand -/

/-- The method `(*bufio.Reader).ReadString(delim)` on the bytes still to come: the
text up to and including the first `delim` and what follows it, or `none` when no
`delim` is left. -/
def readString (delim : Char) : GoString → Option (GoString × GoString)
  | [] => none
  | ch :: rest =>
    if ch = delim then some ([ch], rest)
    else
      match readString delim rest with
      | none => none
      | some (line, rest2) => some (ch :: line, rest2)

/-- The reply loop of `sendCommand` (lines 92-115), `result` being the builder. -/
def readLoop (c : Client) (command : GoString) :
    Nat → World → GoString → Out (GoString × Option GoError)
  | 0, w, _ => ⟨c, w, Exit.stuck⟩
  | fuel + 1, w, result =>
    match readString '\n' w.out with
    | none =>
      if w.outOpen = true then ⟨c, { w with out := [], reads := w.reads + 1 }, Exit.hang⟩
      else
        ⟨c, { w with out := [], reads := w.reads + 1 },
          Exit.ret ([], some ("failed to read response: ".toList ++ w.readErr))⟩
    | some (raw, rest) =>
      let w1 : World := { w with out := rest, reads := w.reads + 1 }
      let line := TrimRight raw "\r\n".toList
      if line = "ok".toList then
        ⟨c, w1, Exit.ret (TrimSuffix result "\n".toList, none)⟩
      else if line = "error".toList ∨ HasPrefix line "error ".toList = true then
        let errMsg := TrimPrefix line "error ".toList
        let errMsg := if errMsg = line then "unknown error".toList else errMsg
        ⟨c, w1, Exit.ret ([], some ("s3270 error: ".toList ++ errMsg ++
          " (command: ".toList ++ command ++ ")".toList))⟩
      else if HasPrefix line "data:".toList = true then
        let content := TrimPrefix line "data:".toList
        let content := TrimPrefix content " ".toList
        readLoop c command fuel w1 (result ++ content ++ "\n".toList)
      else
        readLoop c command fuel w1 result

/-- The method `sendCommand` (lines 78-118). -/
def sendCommand (c : Client) (w : World) (command : GoString) :
    Out (GoString × Option GoError) :=
  match c.cmd with
  | none => ⟨c, w, Exit.ret ([], some "s3270 not started".toList)⟩
  | some _ =>
    if c.stdin = false then ⟨c, w, Exit.panic⟩
    else
      match w.writeErr with
      | some e => ⟨c, w, Exit.ret ([], some ("failed to send command: ".toList ++ e))⟩
      | none =>
        let w1 : World := { w with written := w.written ++ command ++ "\n".toList }
        if c.stdout = false then ⟨c, w1, Exit.panic⟩
        else readLoop c command (w1.out.length + 1) w1 []

/-! ## Process session -/

/-- The method `startS3270` (lines 32-61). The handle is stored before the pipes
are made, as in the source. -/
def startS3270 (c : Client) (w : World) : Out (Option GoError) :=
  match c.cmd with
  | some _ => ⟨c, w, Exit.ret none⟩
  | none =>
    let c1 : Client := { c with cmd := some { process := false } }
    let w1 : World := { w with commands := w.commands + 1 }
    match w.stdinPipeErr with
    | some e => ⟨c1, w1, Exit.ret (some ("failed to create stdin pipe: ".toList ++ e))⟩
    | none =>
      let c2 : Client := { c1 with stdin := true }
      match w.stdoutPipeErr with
      | some e => ⟨c2, w1, Exit.ret (some ("failed to create stdout pipe: ".toList ++ e))⟩
      | none =>
        let c3 : Client := { c2 with stdout := true }
        match w.startErr with
        | some e => ⟨c3, w1, Exit.ret (some ("failed to start s3270: ".toList ++ e))⟩
        | none =>
          ⟨{ c3 with cmd := some { process := true } },
            { w1 with spawns := w1.spawns + 1 }, Exit.ret none⟩

/-- The method `cleanup` (lines 63-76); the errors of `Close`, `Kill` and `Wait`
are discarded by the source, so only the calls are recorded. -/
def cleanup (c : Client) (w : World) : Out Unit :=
  let w1 : World := if c.stdin = true then { w with closes := w.closes + 1 } else w
  let w2 : World :=
    match c.cmd with
    | some cmd =>
      if cmd.process = true then { w1 with kills := w1.kills + 1, waits := w1.waits + 1 }
      else w1
    | none => w1
  ⟨{ c with cmd := none, connected := false }, w2, Exit.ret ()⟩

/-! ## Sequencing -/

/-- Runs `k` on the state and value a call returned; a panic, a call that never
returns or an exhausted model ends the whole operation. -/
def Out.andThen {α β : Type} (o : Out α) (k : Client → World → α → Out β) : Out β :=
  match o.exit with
  | Exit.ret a => k o.client o.world a
  | Exit.panic => ⟨o.client, o.world, Exit.panic⟩
  | Exit.hang => ⟨o.client, o.world, Exit.hang⟩
  | Exit.stuck => ⟨o.client, o.world, Exit.stuck⟩

/-- The idiom `_, err := c.sendCommand(...); return err`. -/
def errOf (o : Out (GoString × Option GoError)) : Out (Option GoError) :=
  o.andThen (fun c w r => ⟨c, w, Exit.ret r.2⟩)

/-! ## Connect and Disconnect -/

/-- Lines 131-134 of `Connect`: the default of 30 seconds, replaced by the first
variadic argument when that is positive. -/
def connectTimeoutSec (timeout : List Int) : Int :=
  match timeout with
  | t :: _ => if t > 0 then t else 30
  | [] => 30

/-- The command text `Connect` sends: `fmt.Sprintf("Connect(%s:%d)", host, port)`. -/
def connectCommand (host : GoString) (port : Int) : GoString :=
  "Connect(".toList ++ host ++ ":".toList ++ fmtInt port ++ ")".toList

/-- The method `Connect` (lines 120-153). -/
def Connect (c : Client) (w : World) (host : GoString) (port : Int) (timeout : List Int) :
    Out (Option GoError) :=
  if host = [] then
    ⟨c, w, Exit.ret (some "host cannot be empty".toList)⟩
  else if goLen host > 253 then
    ⟨c, w, Exit.ret (some "host exceeds maximum length of 253 characters".toList)⟩
  else if port < 1 ∨ port > 65535 then
    ⟨c, w, Exit.ret (some ("port must be between 1 and 65535, got ".toList ++ fmtInt port))⟩
  else
    let timeoutSec := connectTimeoutSec timeout
    if timeoutSec < 1 ∨ timeoutSec > 300 then
      ⟨c, w, Exit.ret (some ("timeout must be between 1 and 300 seconds, got ".toList ++
        fmtInt timeoutSec))⟩
    else
      (startS3270 c w).andThen (fun c1 w1 err =>
        match err with
        | some e => ⟨c1, w1, Exit.ret (some e)⟩
        | none =>
          (sendCommand c1 w1 (connectCommand host port)).andThen (fun c2 w2 r =>
            match r.2 with
            | some e =>
              ⟨c2, w2, Exit.ret (some ("failed to connect to ".toList ++ host ++ ":".toList ++
                fmtInt port ++ ": ".toList ++ e))⟩
            | none => ⟨{ c2 with connected := true }, w2, Exit.ret none⟩))

/-- The method `Disconnect` (lines 155-169). -/
def Disconnect (c : Client) (w : World) : Out (Option GoError) :=
  if c.connected = false then ⟨c, w, Exit.ret none⟩
  else
    (sendCommand c w "Disconnect()".toList).andThen (fun c1 w1 _ =>
      (sendCommand c1 w1 "Quit()".toList).andThen (fun c2 w2 _ =>
        (cleanup c2 w2).andThen (fun c3 w3 _ => ⟨c3, w3, Exit.ret none⟩)))

/-! ## Text entry -/

/-- Go `strconv.IsPrint`; `table` stands for the Unicode tables of the Go library,
consulted only above Latin-1. -/
def IsPrint (table : Char → Bool) (r : Char) : Bool :=
  if r.toNat ≤ 0xFF then
    if 0x20 ≤ r.toNat ∧ r.toNat ≤ 0x7E then true
    else if 0xA1 ≤ r.toNat ∧ r.toNat ≤ 0xFF then r.toNat != 0xAD
    else false
  else table r

/-- One lower-case hexadecimal digit of `n`, the one of weight `16 ^ i`. -/
def lowerhex (n i : Nat) : Char := Nat.digitChar (n / 16 ^ i % 16)

/-- Go `strconv.appendEscapedRune` for the double quote, neither ASCII-only nor
graphic-only: what `strconv.Quote` writes for one code point. -/
def appendEscapedRune (table : Char → Bool) (r : Char) : GoString :=
  if r = '"' ∨ r = '\\' then ['\\', r]
  else if IsPrint table r = true then [r]
  else if r.toNat = 0x07 then ['\\', 'a']
  else if r.toNat = 0x08 then ['\\', 'b']
  else if r.toNat = 0x0C then ['\\', 'f']
  else if r.toNat = 0x0A then ['\\', 'n']
  else if r.toNat = 0x0D then ['\\', 'r']
  else if r.toNat = 0x09 then ['\\', 't']
  else if r.toNat = 0x0B then ['\\', 'v']
  else if r.toNat < 0x20 ∨ r.toNat = 0x7F then
    ['\\', 'x', lowerhex r.toNat 1, lowerhex r.toNat 0]
  else if r.toNat < 0x10000 then
    ['\\', 'u'] ++ (List.range 4).reverse.map (lowerhex r.toNat)
  else
    ['\\', 'U'] ++ (List.range 8).reverse.map (lowerhex r.toNat)

/-- The verb `%q` of `fmt` applied to a string, which is `strconv.Quote`. -/
def Quote (table : Char → Bool) (s : GoString) : GoString :=
  '"' :: (s.map (appendEscapedRune table)).flatten ++ ['"']

/-- The method `String` (lines 171-177). -/
def String (table : Char → Bool) (c : Client) (w : World) (text : GoString) :
    Out (Option GoError) :=
  if goLen text > 1920 then
    ⟨c, w, Exit.ret (some "text exceeds maximum length of 1920 characters".toList)⟩
  else errOf (sendCommand c w ("String(".toList ++ Quote table text ++ ")".toList))

/-- The method `Type` (lines 180-182), an alias of `String`; `Type` is a reserved
word here. -/
def TypeText (table : Char → Bool) (c : Client) (w : World) (text : GoString) :
    Out (Option GoError) :=
  String table c w text

/-! ## Keys -/

/-- The method `Enter`. -/
def Enter (c : Client) (w : World) : Out (Option GoError) :=
  errOf (sendCommand c w "Enter()".toList)

/-- The method `Tab`. -/
def Tab (c : Client) (w : World) : Out (Option GoError) :=
  errOf (sendCommand c w "Tab()".toList)

/-- The method `BackTab`. -/
def BackTab (c : Client) (w : World) : Out (Option GoError) :=
  errOf (sendCommand c w "BackTab()".toList)

/-- The method `Home`. -/
def Home (c : Client) (w : World) : Out (Option GoError) :=
  errOf (sendCommand c w "Home()".toList)

/-- The method `Clear`. -/
def Clear (c : Client) (w : World) : Out (Option GoError) :=
  errOf (sendCommand c w "Clear()".toList)

/-- The method `Pf` (lines 209-215). -/
def Pf (c : Client) (w : World) (key : Int) : Out (Option GoError) :=
  if key < 1 ∨ key > 24 then
    ⟨c, w, Exit.ret (some ("PF key must be between 1 and 24, got ".toList ++ fmtInt key))⟩
  else errOf (sendCommand c w ("PF(".toList ++ fmtInt key ++ ")".toList))

/-- The method `Pa` (lines 217-223). -/
def Pa (c : Client) (w : World) (key : Int) : Out (Option GoError) :=
  if key < 1 ∨ key > 3 then
    ⟨c, w, Exit.ret (some ("PA key must be between 1 and 3, got ".toList ++ fmtInt key))⟩
  else errOf (sendCommand c w ("PA(".toList ++ fmtInt key ++ ")".toList))

/-! ## Cursor -/

/-- The command text `MoveTo` sends:
`fmt.Sprintf("MoveCursor(%d,%d)", row-1, col-1)`. -/
def moveCursorCommand (row col : Int) : GoString :=
  "MoveCursor(".toList ++ fmtInt (row - 1) ++ ",".toList ++ fmtInt (col - 1) ++ ")".toList

/-- The method `MoveTo` (lines 225-234). -/
def MoveTo (c : Client) (w : World) (row col : Int) : Out (Option GoError) :=
  if row < 1 ∨ row > 24 then
    ⟨c, w, Exit.ret (some ("row must be between 1 and 24, got ".toList ++ fmtInt row))⟩
  else if col < 1 ∨ col > 80 then
    ⟨c, w, Exit.ret (some ("column must be between 1 and 80, got ".toList ++ fmtInt col))⟩
  else errOf (sendCommand c w (moveCursorCommand row col))

/-- The method `StringAt` (lines 236-241). -/
def StringAt (table : Char → Bool) (c : Client) (w : World) (text : GoString)
    (row col : Int) : Out (Option GoError) :=
  (MoveTo c w row col).andThen (fun c1 w1 err =>
    match err with
    | some e => ⟨c1, w1, Exit.ret (some e)⟩
    | none => String table c1 w1 text)

/-! ## Waiting and reading the screen -/

/-- Lines 244-247 of `WaitForField` and 258-261 of `WaitForTextAndReturn`: the same
defaulting as in `Connect`. -/
def waitTimeoutSec (timeout : List Int) : Int :=
  match timeout with
  | t :: _ => if t > 0 then t else 30
  | [] => 30

/-- The method `WaitForField` (lines 243-250). -/
def WaitForField (c : Client) (w : World) (timeout : List Int) : Out (Option GoError) :=
  errOf (sendCommand c w
    ("Wait(".toList ++ fmtInt (waitTimeoutSec timeout) ++ ",InputField)".toList))

/-- The method `GetScreenText` (lines 288-290). -/
def GetScreenText (c : Client) (w : World) : Out (GoString × Option GoError) :=
  sendCommand c w "Ascii()".toList

/-- The method `ASCII` (lines 292-294). -/
def ASCII (c : Client) (w : World) : Out (GoString × Option GoError) :=
  GetScreenText c w

/-- Lines 304-307 of `SendCommand` and 320-323 of `SendPF`: wait unless told not to. -/
def waitFlag (waitForResponse : List Bool) : Bool :=
  match waitForResponse with
  | b :: _ => b
  | [] => true

/-- The method `SendCommand` (lines 296-313). -/
def SendCommand (table : Char → Bool) (c : Client) (w : World) (command : GoString)
    (waitForResponse : List Bool) : Out (Option GoError) :=
  (String table c w command).andThen (fun c1 w1 err =>
    match err with
    | some e => ⟨c1, w1, Exit.ret (some e)⟩
    | none =>
      (Enter c1 w1).andThen (fun c2 w2 err2 =>
        match err2 with
        | some e => ⟨c2, w2, Exit.ret (some e)⟩
        | none =>
          if waitFlag waitForResponse = true then WaitForField c2 w2 []
          else ⟨c2, w2, Exit.ret none⟩))

/-- The method `SendPF` (lines 315-329). -/
def SendPF (c : Client) (w : World) (key : Int) (waitForResponse : List Bool) :
    Out (Option GoError) :=
  (Pf c w key).andThen (fun c1 w1 err =>
    match err with
    | some e => ⟨c1, w1, Exit.ret (some e)⟩
    | none =>
      if waitFlag waitForResponse = true then WaitForField c1 w1 []
      else ⟨c1, w1, Exit.ret none⟩)

/-- The method `IsConnected` (lines 331-335). -/
def IsConnected (c : Client) : Bool := c.connected

/-- A client after a successful `startS3270`: the handle and both pipes are held. -/
def started : Client := { cmd := some { process := true }, stdin := true, stdout := true }

/-- A client made by `NewClient` with a VU, after a successful `startS3270`. -/
def ready : Client := { started with vu := true }

/-! ## The polling wait -/

/-- The value `x` as a Go `int64`: arithmetic wraps around. -/
def wrap64 (x : Int) : Int := (x + 2 ^ 63) % 2 ^ 64 - 2 ^ 63

/-- The channel `ctx.Done()` is closed: the cancellation instant has been reached. -/
def ctxDone (w : World) : Bool :=
  match w.cancelAt with
  | some t => decide (t ≤ w.now)
  | none => false

/-- The clock after a screen fetch: the fetch took the next scripted latency. -/
def tick (w : World) : World :=
  { w with now := w.now + (w.latency.headD 0 : Nat), latency := w.latency.tail }

/-- The clock after `time.Sleep(100 * time.Millisecond)`. -/
def sleep100ms (w : World) : World := { w with now := w.now + 100000000 }

/-- The loop of `WaitForTextAndReturn` (lines 266-283). -/
def waitLoop (text : GoString) (deadline : Int) :
    Nat → Client → World → Out (GoString × Option GoError)
  | 0, c, w => ⟨c, w, Exit.stuck⟩
  | fuel + 1, c, w =>
    if w.now < deadline then
      if ctxDone w = true then ⟨c, w, Exit.ret ([], some w.ctxErr)⟩
      else
        (GetScreenText c w).andThen (fun c1 w1 r =>
          match r.2 with
          | some e => ⟨c1, tick w1, Exit.ret ([], some e)⟩
          | none =>
            if Contains r.1 text = true then ⟨c1, tick w1, Exit.ret (r.1, none)⟩
            else waitLoop text deadline fuel c1 (sleep100ms (tick w1)))
    else ⟨c, w, Exit.ret ([], some ("timeout waiting for text: ".toList ++ text))⟩

/-- The deadline of `WaitForTextAndReturn` (line 264):
`time.Now().Add(time.Duration(timeoutSec) * time.Second)`, the product being an
`int64` of nanoseconds. -/
def waitDeadline (w : World) (timeout : List Int) : Int :=
  w.now + wrap64 (waitTimeoutSec timeout * 1000000000)

/-- The method `WaitForTextAndReturn` (lines 257-286). Calling `Context` on a nil VU
panics. Every turn of the loop moves the clock by at least 100 ms, so the fuel
given is never used up. -/
def WaitForTextAndReturn (c : Client) (w : World) (text : GoString) (timeout : List Int) :
    Out (GoString × Option GoError) :=
  if c.vu = false then ⟨c, w, Exit.panic⟩
  else
    waitLoop text (waitDeadline w timeout) ((waitDeadline w timeout - w.now).toNat + 1) c w

/-- The method `WaitForText` (lines 252-255). -/
def WaitForText (c : Client) (w : World) (text : GoString) (timeout : List Int) :
    Out (Option GoError) :=
  errOf (WaitForTextAndReturn c w text timeout)

/-! ## Screenshot -/

/-- Go `strings.Split` with a separator of one character. -/
def Split (sep : Char) : GoString → List GoString
  | [] => [[]]
  | ch :: rest =>
    if ch = sep then [] :: Split sep rest
    else
      match Split sep rest with
      | l :: ls => (ch :: l) :: ls
      | [] => [[ch]]

/-- Go `strings.Join` with a separator of one character. -/
def Join (sep : Char) : List GoString → GoString
  | [] => []
  | [x] => x
  | x :: y :: rest => x ++ sep :: Join sep (y :: rest)

/-- The elements of a path as `filepath.Clean` keeps them (Unix): empty elements
and `.` are dropped, `..` removes the element before it; where there is none, it is
dropped in a rooted path and kept, counted in `ups`, in a relative one. `kept` holds
the names kept so far, the last one first. -/
def cleanElems (rooted : Bool) : List GoString → Nat → List GoString → Nat × List GoString
  | [], ups, kept => (ups, kept)
  | e :: es, ups, kept =>
    if e = [] ∨ e = ['.'] then cleanElems rooted es ups kept
    else if e = ['.', '.'] then
      match kept with
      | _ :: kept1 => cleanElems rooted es ups kept1
      | [] => if rooted = true then cleanElems rooted es ups [] else cleanElems rooted es (ups + 1) []
    else cleanElems rooted es ups (e :: kept)

/-- Go `filepath.Clean` on Unix, a function of the Go library. -/
def Clean (path : GoString) : GoString :=
  let rooted : Bool := path.head? = some '/'
  let r := cleanElems rooted (Split '/' path) 0 []
  let body := Join '/' (List.replicate r.1 ['.', '.'] ++ r.2.reverse)
  if rooted = true then '/' :: body
  else if body = [] then ['.'] else body

/-- Go `filepath.Dir` on Unix: `Clean` of the path up to and including its last
separator. -/
def Dir (path : GoString) : GoString :=
  Clean (path.reverse.dropWhile (fun ch => ch != '/')).reverse

/-- The method `Screenshot` (lines 337-364). -/
def Screenshot (c : Client) (w : World) (path : GoString) : Out (Option GoError) :=
  if path = [] then ⟨c, w, Exit.ret (some "path cannot be empty".toList)⟩
  else
    let cleanPath := Clean path
    if Contains cleanPath "..".toList = true then
      ⟨c, w, Exit.ret (some "path cannot contain parent directory references".toList)⟩
    else
      (GetScreenText c w).andThen (fun c1 w1 r =>
        match r.2 with
        | some e => ⟨c1, w1, Exit.ret (some ("failed to get screen: ".toList ++ e))⟩
        | none =>
          let dir := Dir cleanPath
          let made : Option GoError × World :=
            if dir ≠ [] ∧ dir ≠ ['.'] then
              match w1.mkdirErr with
              | some e => (some e, w1)
              | none => (none, { w1 with dirs := w1.dirs ++ [dir] })
            else (none, w1)
          match made.1 with
          | some e => ⟨c1, made.2, Exit.ret (some ("failed to create directory: ".toList ++ e))⟩
          | none =>
            match made.2.writeFileErr with
            | some e =>
              ⟨c1, made.2, Exit.ret (some ("failed to write screenshot: ".toList ++ e))⟩
            | none =>
              ⟨c1, { made.2 with files := made.2.files ++ [(cleanPath, r.1)] },
                Exit.ret none⟩)

/-! ## PrintScreen -/

/-- The verb `%2d` of `fmt`: the decimal text, padded on the left with spaces to
`width` characters. -/
def fmtIntWidth (width : Nat) (i : Int) : GoString :=
  List.replicate (width - (fmtInt i).length) ' ' ++ fmtInt i

/-- Lines 376-379 of `PrintScreen`: the line padded with spaces to 80 bytes. -/
def padLine (line : GoString) : GoString :=
  if goLen line < 80 then line ++ List.replicate (80 - goLen line) ' ' else line

/-- Line 380 of `PrintScreen`: the row of the line of index `i`. -/
def printRow (i : Nat) (line : GoString) : GoString :=
  "│".toList ++ fmtIntWidth 2 ((i : Int) + 1) ++ "│".toList ++ padLine line ++ "│\n".toList

/-- The rows of lines 375-381, for the lines from index `i` on. -/
def printRows : Nat → List GoString → GoString
  | _, [] => []
  | i, line :: rest => printRow i line ++ printRows (i + 1) rest

/-- The top border of `PrintScreen` (line 374), its newline apart. -/
def topBorder : GoString := "┌".toList ++ List.replicate 82 '─' ++ "┐".toList

/-- The bottom border of `PrintScreen` (line 382). -/
def bottomBorder : GoString := "└".toList ++ List.replicate 82 '─' ++ "┘".toList

/-- Lines 372-383 of `PrintScreen`: the rendering of a screen text. -/
def renderScreen (screen : GoString) : GoString :=
  topBorder ++ ['\n'] ++ printRows 0 (Split '\n' screen) ++ bottomBorder

/-- The method `PrintScreen` (lines 366-384). -/
def PrintScreen (c : Client) (w : World) : Out (GoString × Option GoError) :=
  (GetScreenText c w).andThen (fun c1 w1 r =>
    match r.2 with
    | some e => ⟨c1, w1, Exit.ret ([], some e)⟩
    | none => ⟨c1, w1, Exit.ret (renderScreen r.1, none)⟩)

/-! ## The reply grammar, in the words of the specification -/

/-- A raw reply line as the loop sees it: trailing carriage returns and newlines
are trimmed. -/
def stripLine (raw : GoString) : GoString := TrimRight raw "\r\n".toList

/-- The bytes of a reply made of the raw lines `raws`, each ended by a newline. -/
def frame (raws : List GoString) : GoString := (raws.map (fun r => r ++ ['\n'])).flatten

/-- An error line: `error` alone, or a line beginning with `error `. -/
def isErrorLine (line : GoString) : Bool :=
  line == "error".toList || HasPrefix line "error ".toList

/-- A terminal line: `ok` or an error line. -/
def isTerminal (line : GoString) : Bool :=
  line == "ok".toList || isErrorLine line

/-- The payload of a data line: the text after `data:` and after at most one
following space; `none` for a line that does not begin with `data:`. -/
def dataContent (line : GoString) : Option GoString :=
  if HasPrefix line "data:".toList then
    some (TrimPrefix (TrimPrefix line "data:".toList) " ".toList)
  else none

/-- The payloads of the data lines among `lines`, in order. -/
def dataContents (lines : List GoString) : List GoString := lines.filterMap dataContent

/-- What the builder of the loop holds after the payloads `cs`: each followed by a
newline. -/
def built (cs : List GoString) : GoString := (cs.map (fun x => x ++ ['\n'])).flatten

/-- The texts joined by single newlines, with none at the end. -/
def joinLines : List GoString → GoString
  | [] => []
  | [x] => x
  | x :: y :: rest => x ++ '\n' :: joinLines (y :: rest)

/-- The world after an exchange that wrote `command` and consumed `n` lines,
leaving `rest` unread. -/
def afterExchange (w : World) (command : GoString) (n : Nat) (rest : GoString) : World :=
  { w with written := w.written ++ command ++ ['\n'], out := rest, reads := w.reads + n }

/-- What a call wrote on the input stream: the bytes it added to `written`. -/
def sent {α : Type} (w : World) (o : Out α) : GoString :=
  o.world.written.drop w.written.length

/-- One protocol line: a text that holds no newline, followed by one newline. -/
def oneLine (s : GoString) : Prop := ∃ cmd : GoString, '\n' ∉ cmd ∧ s = cmd ++ ['\n']

/-! ## Runs of public operations -/

/-- A call of one of the public methods of `Client`, with its arguments. -/
inductive Op where
  | connect (host : GoString) (port : Int) (timeout : List Int)
  | disconnect
  | string (text : GoString)
  | typeText (text : GoString)
  | enter
  | tab
  | backTab
  | home
  | clear
  | pf (key : Int)
  | pa (key : Int)
  | moveTo (row col : Int)
  | stringAt (text : GoString) (row col : Int)
  | waitForField (timeout : List Int)
  | waitForText (text : GoString) (timeout : List Int)
  | waitForTextAndReturn (text : GoString) (timeout : List Int)
  | getScreenText
  | ascii
  | sendCommand (command : GoString) (waitForResponse : List Bool)
  | sendPF (key : Int) (waitForResponse : List Bool)
  | isConnected
  | screenshot (path : GoString)
  | printScreen

/-- The client and the world a call leaves behind, however it ended. -/
def Out.state {α : Type} (o : Out α) : Client × World := (o.client, o.world)

/-- The state after the call `op` made in the state `(c, w)`. -/
def Op.run (table : Char → Bool) (op : Op) (c : Client) (w : World) : Client × World :=
  match op with
  | Op.connect host port timeout => (Connect c w host port timeout).state
  | Op.disconnect => (Disconnect c w).state
  | Op.string text => (String table c w text).state
  | Op.typeText text => (TypeText table c w text).state
  | Op.enter => (Enter c w).state
  | Op.tab => (Tab c w).state
  | Op.backTab => (BackTab c w).state
  | Op.home => (Home c w).state
  | Op.clear => (Clear c w).state
  | Op.pf key => (Pf c w key).state
  | Op.pa key => (Pa c w key).state
  | Op.moveTo row col => (MoveTo c w row col).state
  | Op.stringAt text row col => (StringAt table c w text row col).state
  | Op.waitForField timeout => (WaitForField c w timeout).state
  | Op.waitForText text timeout => (WaitForText c w text timeout).state
  | Op.waitForTextAndReturn text timeout => (WaitForTextAndReturn c w text timeout).state
  | Op.getScreenText => (GetScreenText c w).state
  | Op.ascii => (ASCII c w).state
  | Op.sendCommand command waitForResponse =>
    (SendCommand table c w command waitForResponse).state
  | Op.sendPF key waitForResponse => (SendPF c w key waitForResponse).state
  | Op.isConnected => (c, w)
  | Op.screenshot path => (Screenshot c w path).state
  | Op.printScreen => (PrintScreen c w).state

/-- The clients reachable from a fresh one, as `NewClient` makes it, by a
sequential run of public calls; the world each call finds is arbitrary. -/
inductive Reachable (table : Char → Bool) : Client → Prop where
  | fresh (vu : Bool) : Reachable table { vu := vu }
  | step (op : Op) (c : Client) (w : World) :
    Reachable table c → Reachable table (op.run table c w).1

/-! ## Scripted screens, for the polling wait -/

/-- A reply that ends well: raw lines, none of them terminal, and a line that is
`ok` once trimmed. -/
structure Reply where
  raws : List GoString
  okRaw : GoString

/-- The bytes of the reply on the output stream. -/
def Reply.bytes (r : Reply) : GoString := frame r.raws ++ (r.okRaw ++ ['\n'])

/-- The reply is well formed: no raw line holds a newline, none of the lines before
the last is terminal, and the last one is `ok` once trimmed. -/
@[reducible] def Reply.good (r : Reply) : Prop :=
  (∀ x ∈ r.raws, '\n' ∉ x) ∧ (∀ x ∈ r.raws, isTerminal (stripLine x) = false) ∧
    '\n' ∉ r.okRaw ∧ stripLine r.okRaw = "ok".toList

/-- The screen text the reply carries: its data payloads joined by newlines. -/
def Reply.screen (r : Reply) : GoString := joinLines (dataContents (r.raws.map stripLine))

/-- The context is cancelled at or before the instant `t`. -/
def cancelledBy (w : World) (t : Int) : Bool :=
  match w.cancelAt with
  | some s => decide (s ≤ t)
  | none => false

/-- The instant at which turn `k` of the loop begins (turns counted from 0), when
every earlier turn fetched a screen and slept: the clock `now` moved on by the
latency of each fetch and by 100 ms for each sleep. -/
def startTime : Nat → Int → List Nat → Int
  | 0, now, _ => now
  | k + 1, now, lats => startTime k (now + (lats.headD 0 : Nat) + 100000000) lats.tail

/-- The world after the screen fetch that read the reply `r`. -/
def afterFetch (w : World) (r : Reply) : World :=
  tick (afterExchange w "Ascii()".toList (r.raws.length + 1) (w.out.drop r.bytes.length))

/-- The world after the turns that read the replies `rs`, each followed by the
sleep. -/
def afterMisses (w : World) : List Reply → World
  | [] => w
  | r :: rs => afterMisses (sleep100ms (afterFetch w r)) rs

/-! ## Lemmas on strings -/

theorem readString_frame (r rest : GoString) (h : '\n' ∉ r) :
    readString '\n' (r ++ '\n' :: rest) = some (r ++ ['\n'], rest) := by
  induction r with
  | nil => simp [readString]
  | cons a r ih =>
    have ha : a ≠ '\n' := fun e => h (by simp [e])
    have hr : '\n' ∉ r := fun e => h (by simp [e])
    simp [readString, ha, ih hr]

theorem readString_length (delim : Char) (s line rest : GoString)
    (h : readString delim s = some (line, rest)) : rest.length < s.length := by
  induction s generalizing line rest with
  | nil => simp [readString] at h
  | cons a s ih =>
    simp only [readString] at h
    split at h
    · simp only [Option.some.injEq, Prod.mk.injEq] at h
      simp [← h.2]
    · cases hrs : readString delim s with
      | none => simp [hrs] at h
      | some q =>
        obtain ⟨l2, r2⟩ := q
        simp only [hrs, Option.some.injEq, Prod.mk.injEq] at h
        have := ih l2 r2 hrs
        simp only [List.length_cons, ← h.2]
        omega

theorem TrimRight_newline (r : GoString) :
    TrimRight (r ++ ['\n']) "\r\n".toList = stripLine r := by
  simp [TrimRight, stripLine, List.dropWhile]

theorem TrimSuffix_newline (s : GoString) : TrimSuffix (s ++ ['\n']) "\n".toList = s := by
  simp [TrimSuffix, HasSuffix]

theorem TrimSuffix_nil : TrimSuffix [] "\n".toList = [] := by
  simp [TrimSuffix, HasSuffix]

theorem built_eq_joinLines (x : GoString) (cs : List GoString) :
    built (x :: cs) = joinLines (x :: cs) ++ ['\n'] := by
  induction cs generalizing x with
  | nil => simp [built, joinLines]
  | cons y cs ih =>
    have := ih y
    simp only [built, List.map_cons, List.flatten_cons] at this ⊢
    simp [joinLines, this]

theorem TrimSuffix_built (cs : List GoString) :
    TrimSuffix (built cs) "\n".toList = joinLines cs := by
  cases cs with
  | nil => simp [built, joinLines, TrimSuffix, HasSuffix]
  | cons x cs => rw [built_eq_joinLines, TrimSuffix_newline]

theorem frame_length (raws : List GoString) : raws.length ≤ (frame raws).length := by
  induction raws with
  | nil => simp [frame]
  | cons r raws ih =>
    simp only [frame, List.map_cons, List.flatten_cons, List.length_append, List.length_cons,
      List.length_nil] at ih ⊢
    omega

/-! ## The reply loop -/

/-- One turn of the loop on a line that is not terminal: a data line adds its
payload and a newline to the builder, any other line adds nothing. -/
theorem readLoop_step (c : Client) (command : GoString) (fuel : Nat) (w : World)
    (result r tail : GoString) (hout : w.out = r ++ '\n' :: tail) (hnl : '\n' ∉ r)
    (hterm : isTerminal (stripLine r) = false) :
    readLoop c command (fuel + 1) w result =
      readLoop c command fuel { w with out := tail, reads := w.reads + 1 }
        (result ++ built (dataContents [stripLine r])) := by
  simp only [isTerminal, isErrorLine, Bool.or_eq_false_iff, beq_eq_false_iff_ne, ne_eq] at hterm
  obtain ⟨hok, herr, hpre⟩ := hterm
  rw [readLoop, hout, readString_frame r tail hnl]
  simp only [TrimRight_newline, hok, herr, hpre, if_false, false_or, Bool.false_eq_true]
  cases hd : HasPrefix (stripLine r) "data:".toList with
  | true =>
    simp only [dataContents, dataContent, hd, built, List.filterMap_cons, List.filterMap_nil,
      if_true, List.map_cons, List.map_nil, List.flatten_cons, List.flatten_nil,
      List.append_nil, List.append_assoc]
    rfl
  | false =>
    simp only [dataContents, dataContent, hd, built, List.filterMap_cons, List.filterMap_nil,
      if_false, List.map_nil, List.flatten_nil, List.append_nil, Bool.false_eq_true]

theorem built_append (xs ys : List GoString) : built (xs ++ ys) = built xs ++ built ys := by
  simp [built]

theorem dataContents_cons (l : GoString) (ls : List GoString) :
    dataContents (l :: ls) = dataContents [l] ++ dataContents ls := by
  simp only [dataContents, List.filterMap_cons, List.filterMap_nil]
  cases dataContent l <;> simp

/-- The loop over a run of lines none of which is terminal. -/
theorem readLoop_run (c : Client) (command : GoString) (raws : List GoString) :
    ∀ (fuel : Nat) (w : World) (result tail : GoString),
      w.out = frame raws ++ tail →
      (∀ r ∈ raws, '\n' ∉ r) →
      (∀ r ∈ raws, isTerminal (stripLine r) = false) →
      readLoop c command (raws.length + fuel) w result =
        readLoop c command fuel { w with out := tail, reads := w.reads + raws.length }
          (result ++ built (dataContents (raws.map stripLine))) := by
  induction raws with
  | nil =>
    intro fuel w result tail hout _ _
    simp only [frame, List.map_nil, List.flatten_nil, List.nil_append] at hout
    simp [dataContents, built, ← hout]
  | cons r raws ih =>
    intro fuel w result tail hout hnl hterm
    have hout1 : w.out = r ++ '\n' :: (frame raws ++ tail) := by
      simp [hout, frame]
    have e : (r :: raws).length + fuel = (raws.length + fuel) + 1 := by
      simp only [List.length_cons]; omega
    rw [e, readLoop_step c command _ w result r _ hout1 (hnl r (by simp))
      (hterm r (by simp))]
    rw [ih fuel _ _ tail rfl (fun x hx => hnl x (by simp [hx]))
      (fun x hx => hterm x (by simp [hx]))]
    rw [List.map_cons, dataContents_cons (stripLine r) (raws.map stripLine), built_append]
    simp [Nat.add_assoc, Nat.add_comm 1]

/-- The loop on a reply whose first terminal line is `ok`. -/
theorem readLoop_ok (c : Client) (command : GoString) (raws : List GoString)
    (okRaw rest : GoString) (fuel : Nat) (w : World)
    (hstream : w.out = frame raws ++ (okRaw ++ '\n' :: rest))
    (hnl : ∀ r ∈ raws, '\n' ∉ r) (hoknl : '\n' ∉ okRaw)
    (hbefore : ∀ r ∈ raws, isTerminal (stripLine r) = false)
    (hok : stripLine okRaw = "ok".toList) :
    readLoop c command (raws.length + (fuel + 1)) w [] =
      ⟨c, { w with out := rest, reads := w.reads + (raws.length + 1) },
        Exit.ret (joinLines (dataContents (raws.map stripLine)), none)⟩ := by
  rw [readLoop_run c command raws (fuel + 1) w [] _ hstream hnl hbefore]
  rw [readLoop]
  simp only [readString_frame okRaw rest hoknl, TrimRight_newline, hok, if_true,
    List.nil_append, TrimSuffix_built, Nat.add_assoc]

/-- The loop on a reply whose first terminal line is an error line. -/
theorem readLoop_error (c : Client) (command : GoString) (raws : List GoString)
    (errRaw rest : GoString) (fuel : Nat) (w : World)
    (hstream : w.out = frame raws ++ (errRaw ++ '\n' :: rest))
    (hnl : ∀ r ∈ raws, '\n' ∉ r) (herrnl : '\n' ∉ errRaw)
    (hbefore : ∀ r ∈ raws, isTerminal (stripLine r) = false)
    (herr : isErrorLine (stripLine errRaw) = true) :
    readLoop c command (raws.length + (fuel + 1)) w [] =
      ⟨c, { w with out := rest, reads := w.reads + (raws.length + 1) },
        Exit.ret ([], some ("s3270 error: ".toList ++
          (if TrimPrefix (stripLine errRaw) "error ".toList = stripLine errRaw
            then "unknown error".toList
            else TrimPrefix (stripLine errRaw) "error ".toList) ++
          " (command: ".toList ++ command ++ ")".toList))⟩ := by
  rw [readLoop_run c command raws (fuel + 1) w [] _ hstream hnl hbefore]
  rw [readLoop]
  have hnotok : stripLine errRaw ≠ "ok".toList := by
    intro h
    rw [h] at herr
    exact absurd herr (by decide)
  have herr2 : stripLine errRaw = "error".toList ∨
      HasPrefix (stripLine errRaw) "error ".toList = true := by
    simpa [isErrorLine] using herr
  simp only [readString_frame errRaw rest herrnl, TrimRight_newline, hnotok, if_false,
    herr2, if_true, Nat.add_assoc]

/-- With more fuel than bytes to read, the loop never runs out of fuel. -/
theorem readLoop_not_stuck (c : Client) (command : GoString) :
    ∀ (fuel : Nat) (w : World) (result : GoString), w.out.length < fuel →
      (readLoop c command fuel w result).exit ≠ Exit.stuck := by
  intro fuel
  induction fuel with
  | zero => intro w result h; omega
  | succ fuel ih =>
    intro w result h
    rw [readLoop]
    cases hrs : readString '\n' w.out with
    | none => simp only; split <;> simp
    | some q =>
      obtain ⟨raw, rest⟩ := q
      have hlt := readString_length '\n' w.out raw rest hrs
      have hfuel : rest.length < fuel := by omega
      simp only
      split
      · simp
      · split
        · simp
        · split
          · exact ih _ _ hfuel
          · exact ih _ _ hfuel

/-- The loop writes nothing and leaves the client as it was. -/
theorem readLoop_frame (c : Client) (command : GoString) :
    ∀ (fuel : Nat) (w : World) (result : GoString),
      (readLoop c command fuel w result).client = c ∧
      (readLoop c command fuel w result).world.written = w.written := by
  intro fuel
  induction fuel with
  | zero => intro w result; simp [readLoop]
  | succ fuel ih =>
    intro w result
    rw [readLoop]
    cases hrs : readString '\n' w.out with
    | none => simp only; split <;> simp
    | some q =>
      obtain ⟨raw, rest⟩ := q
      simp only
      split
      · simp
      · split
        · simp
        · split
          · exact ih _ _
          · exact ih _ _

/-! ## sendCommand: results and errors -/

/-- On a client holding a handle and both pipes, whose input pipe takes the write,
`sendCommand` is the reply loop run on the world after the write. -/
theorem sendCommand_started (c : Client) (w : World) (command : GoString)
    (hcmd : c.cmd.isSome = true) (hin : c.stdin = true) (hout : c.stdout = true)
    (hwrite : w.writeErr = none) :
    sendCommand c w command =
      readLoop c command (w.out.length + 1)
        { w with written := w.written ++ command ++ ['\n'] } [] := by
  cases hc : c.cmd with
  | none => simp [hc] at hcmd
  | some handle => simp [sendCommand, hc, hin, hout, hwrite]

theorem fuel_split (raws : List GoString) (tail : GoString) :
    (frame raws ++ tail).length + 1 =
      raws.length + (((frame raws ++ tail).length - raws.length) + 1) := by
  have := frame_length raws
  simp only [List.length_append]
  omega

/-- C1: on a started client whose input pipe takes the write, when the reply
stream holds an `ok` line and no line before the first one is `error` or begins
with `error `, `sendCommand` returns without error the payloads of the `data:`
lines before that `ok`, in order, joined by single newlines (the empty string when
there is none, and no newline at the end); the other lines add nothing. Exactly
the lines up to the `ok` are consumed. -/
theorem sendCommand_ok_joins_data (c : Client) (w : World) (command : GoString)
    (raws : List GoString) (okRaw rest : GoString)
    (hcmd : c.cmd.isSome = true) (hin : c.stdin = true) (hout : c.stdout = true)
    (hwrite : w.writeErr = none)
    (hstream : w.out = frame raws ++ (okRaw ++ '\n' :: rest))
    (hnl : ∀ r ∈ raws, '\n' ∉ r) (hoknl : '\n' ∉ okRaw)
    (hok : stripLine okRaw = "ok".toList)
    (hbefore : ∀ r ∈ raws, stripLine r ≠ "ok".toList ∧ isErrorLine (stripLine r) = false) :
    sendCommand c w command =
      ⟨c, afterExchange w command (raws.length + 1) rest,
        Exit.ret (joinLines (dataContents (raws.map stripLine)), none)⟩ := by
  have hterm : ∀ r ∈ raws, isTerminal (stripLine r) = false := by
    intro r hr
    obtain ⟨h1, h2⟩ := hbefore r hr
    simp only [isTerminal, Bool.or_eq_false_iff, beq_eq_false_iff_ne]
    exact ⟨h1, h2⟩
  rw [sendCommand_started c w command hcmd hin hout hwrite, hstream, fuel_split]
  rw [readLoop_ok c command raws okRaw rest _ _ rfl hnl hoknl hterm hok]
  simp [afterExchange, hstream]

/-- C1 at the reply `data: LINE1`, `other`, `data:LINE2`, `ok`. -/
theorem sendCommand_ok_joins_data_witness :
    sendCommand started { out := "data: LINE1\r\nother\ndata:LINE2\nok\nmore".toList }
        "Ascii()".toList =
      ⟨started, { written := "Ascii()\n".toList, out := "more".toList, reads := 4 },
        Exit.ret ("LINE1\nLINE2".toList, none)⟩ :=
  sendCommand_ok_joins_data started
    { out := "data: LINE1\r\nother\ndata:LINE2\nok\nmore".toList } "Ascii()".toList
    ["data: LINE1\r".toList, "other".toList, "data:LINE2".toList] "ok".toList "more".toList
    (by decide) (by decide) (by decide) (by decide) (by decide) (by decide) (by decide)
    (by decide) (by decide)

/-- C2: on a started client whose input pipe takes the write, when the first
terminal line of the reply is `error ` followed by a non-empty message,
`sendCommand` returns the empty string and the error
`s3270 error: <msg> (command: <command>)`, which contains both the message and
the command text, however many data lines came before. (Nothing in the proof needs
the message to be non-empty.) -/
theorem sendCommand_error_message (c : Client) (w : World) (command : GoString)
    (raws : List GoString) (errRaw msg rest : GoString)
    (hcmd : c.cmd.isSome = true) (hin : c.stdin = true) (hout : c.stdout = true)
    (hwrite : w.writeErr = none)
    (hstream : w.out = frame raws ++ (errRaw ++ '\n' :: rest))
    (hnl : ∀ r ∈ raws, '\n' ∉ r) (herrnl : '\n' ∉ errRaw)
    (hbefore : ∀ r ∈ raws, isTerminal (stripLine r) = false)
    (herr : stripLine errRaw = "error ".toList ++ msg) :
    sendCommand c w command =
      ⟨c, afterExchange w command (raws.length + 1) rest,
        Exit.ret ([], some ("s3270 error: ".toList ++ msg ++ " (command: ".toList ++
          command ++ ")".toList))⟩ ∧
    msg <:+: "s3270 error: ".toList ++ msg ++ " (command: ".toList ++ command ++ ")".toList ∧
    command <:+:
      "s3270 error: ".toList ++ msg ++ " (command: ".toList ++ command ++ ")".toList := by
  have hpre : HasPrefix (stripLine errRaw) "error ".toList = true := by
    rw [herr]; simp [HasPrefix]
  have hline : isErrorLine (stripLine errRaw) = true := by
    simp only [isErrorLine, hpre, Bool.or_true]
  have htrim : TrimPrefix (stripLine errRaw) "error ".toList = msg := by
    rw [TrimPrefix, hpre, herr]; simp
  have hne : msg ≠ stripLine errRaw := by
    intro h
    have hl := congrArg List.length h
    rw [herr] at hl
    simp at hl
    omega
  refine ⟨?_, ?_, ?_⟩
  · rw [sendCommand_started c w command hcmd hin hout hwrite, hstream, fuel_split]
    rw [readLoop_error c command raws errRaw rest _ _ rfl hnl herrnl hbefore hline, htrim,
      if_neg hne]
    simp [afterExchange, hstream]
  · exact ⟨"s3270 error: ".toList, " (command: ".toList ++ command ++ ")".toList, by simp⟩
  · exact ⟨"s3270 error: ".toList ++ msg ++ " (command: ".toList, ")".toList, by simp⟩

/-- C2 at the reply `data: partial`, `error bad field`. -/
theorem sendCommand_error_message_witness :
    sendCommand started { out := "data: partial\nerror bad field\n".toList }
        "Test()".toList =
      ⟨started, { written := "Test()\n".toList, out := [], reads := 2 },
        Exit.ret ([], some "s3270 error: bad field (command: Test())".toList)⟩ :=
  (sendCommand_error_message started { out := "data: partial\nerror bad field\n".toList }
    "Test()".toList ["data: partial".toList] "error bad field".toList "bad field".toList []
    (by decide) (by decide) (by decide) (by decide) (by decide) (by decide) (by decide)
    (by decide) (by decide)).1

/-- C3: the reply line `error ` (the keyword, one space, nothing more) makes
`sendCommand` report a protocol error whose message is empty, not
`unknown error`; the bare line `error` does get `unknown error`. -/
theorem sendCommand_error_blank_message :
    (sendCommand started { out := "error \n".toList } "Test()".toList).exit =
        Exit.ret ([], some "s3270 error:  (command: Test())".toList) ∧
    (sendCommand started { out := "error\n".toList } "Test()".toList).exit =
        Exit.ret ([], some "s3270 error: unknown error (command: Test())".toList) := by
  decide

/-- C4: on a client that holds no process handle, `sendCommand` returns the error
`s3270 not started` and the empty string; the world is the one it was given
(nothing is written, nothing is read) and so is every field of the client. -/
theorem sendCommand_not_started (c : Client) (w : World) (command : GoString)
    (hcmd : c.cmd = none) :
    sendCommand c w command = ⟨c, w, Exit.ret ([], some "s3270 not started".toList)⟩ := by
  simp [sendCommand, hcmd]

/-- C4 at the zero client of the test, with output waiting to be read. -/
theorem sendCommand_not_started_witness :
    sendCommand {} { out := "ok\n".toList } "Test()".toList =
      ⟨{}, { out := "ok\n".toList }, Exit.ret ([], some "s3270 not started".toList)⟩ :=
  sendCommand_not_started {} { out := "ok\n".toList } "Test()".toList rfl

/-- What `sendCommand` writes: the command and one newline when a handle and the
input pipe are held and the write succeeds, nothing otherwise. -/
theorem sendCommand_written (c : Client) (w : World) (command : GoString) :
    (sendCommand c w command).world.written =
      if c.cmd.isSome = true ∧ c.stdin = true ∧ w.writeErr = none
      then w.written ++ command ++ ['\n'] else w.written := by
  unfold sendCommand
  cases hc : c.cmd with
  | none => simp
  | some handle =>
    cases hin : c.stdin with
    | false => simp
    | true =>
      cases hw : w.writeErr with
      | some e => simp
      | none =>
        cases hout : c.stdout with
        | false => simp
        | true => simp [(readLoop_frame c command _ _ _).2]

/-- The client is the same after `sendCommand`. -/
theorem sendCommand_client (c : Client) (w : World) (command : GoString) :
    (sendCommand c w command).client = c := by
  unfold sendCommand
  cases hc : c.cmd with
  | none => simp
  | some handle =>
    cases hin : c.stdin with
    | false => simp
    | true =>
      cases hw : w.writeErr with
      | some e => simp
      | none =>
        cases hout : c.stdout with
        | false => simp
        | true => simp [(readLoop_frame c command _ _ _).1]

/-- The method `sendCommand` returns, panics or blocks in a read: the fuel of the
model is never exhausted. -/
theorem sendCommand_not_stuck (c : Client) (w : World) (command : GoString) :
    (sendCommand c w command).exit ≠ Exit.stuck := by
  unfold sendCommand
  cases hc : c.cmd with
  | none => simp
  | some handle =>
    cases hin : c.stdin with
    | false => simp
    | true =>
      cases hw : w.writeErr with
      | some e => simp
      | none =>
        cases hout : c.stdout with
        | false => simp
        | true =>
          simp only [Bool.true_eq_false, if_false]
          exact readLoop_not_stuck c command _ _ _ (by simp)

theorem errOf_written (o : Out (GoString × Option GoError)) :
    (errOf o).world.written = o.world.written := by
  unfold errOf Out.andThen
  cases o.exit <;> rfl

theorem sent_sendCommand (c : Client) (w : World) (command : GoString)
    (hcmd : c.cmd.isSome = true) (hin : c.stdin = true) (hwrite : w.writeErr = none) :
    sent w (errOf (sendCommand c w command)) = command ++ ['\n'] := by
  simp [sent, errOf_written, sendCommand_written, hcmd, hin, hwrite]

/-! ## Validation of the wrappers -/

/-- C5: `Connect` accepts a host that holds a newline and copies it into the
command, so what it writes is two protocol lines, `Connect(h` and `Quit():23)`. -/
theorem Connect_host_newline_splits_command :
    (Connect {} { out := "ok\n".toList } "h\nQuit()".toList 23 []).exit = Exit.ret none ∧
    sent { out := "ok\n".toList }
        (Connect {} { out := "ok\n".toList } "h\nQuit()".toList 23 []) =
      "Connect(h\nQuit():23)\n".toList ∧
    frame ["Connect(h".toList, "Quit():23)".toList] = "Connect(h\nQuit():23)\n".toList ∧
    ¬ oneLine (sent { out := "ok\n".toList }
        (Connect {} { out := "ok\n".toList } "h\nQuit()".toList 23 [])) := by
  refine ⟨by decide, by decide, by decide, ?_⟩
  rintro ⟨cmd, hno, heq⟩
  have hsent : sent { out := "ok\n".toList }
      (Connect {} { out := "ok\n".toList } "h\nQuit()".toList 23 []) =
        "Connect(h\nQuit():23)".toList ++ ['\n'] := by decide
  rw [hsent] at heq
  have hcmd := List.append_inj_left' heq rfl
  rw [← hcmd] at hno
  exact hno (by decide)

theorem length_le_goLen (s : GoString) : s.length ≤ goLen s := by
  induction s with
  | nil => simp [goLen]
  | cons a s ih =>
    have ha : 0 < a.utf8Size := Char.utf8Size_pos a
    simp only [goLen, List.map_cons, List.sum_cons, List.length_cons] at ih ⊢
    omega

/-- C7, as the code has it: an empty host gives `host cannot be empty`, a host of
more than 253 bytes (so any host of more than 253 characters) gives the length
error, and a port outside [1,65535] gives the port error when the host has passed
both host checks. In each case the client and the world are the ones given: no
process is started and no command is sent. -/
theorem Connect_validation (c : Client) (w : World) (host : GoString) (port : Int)
    (timeout : List Int) :
    (host = [] →
      Connect c w host port timeout =
        ⟨c, w, Exit.ret (some "host cannot be empty".toList)⟩) ∧
    (253 < host.length ∨ 253 < goLen host →
      Connect c w host port timeout =
        ⟨c, w, Exit.ret (some "host exceeds maximum length of 253 characters".toList)⟩) ∧
    (host ≠ [] → goLen host ≤ 253 → port < 1 ∨ 65535 < port →
      Connect c w host port timeout =
        ⟨c, w, Exit.ret (some ("port must be between 1 and 65535".toList ++
          ", got ".toList ++ fmtInt port))⟩) := by
  refine ⟨?_, ?_, ?_⟩
  · intro h
    simp [Connect, h]
  · intro h
    have hlen : 253 < goLen host := by
      rcases h with h | h
      · exact Nat.lt_of_lt_of_le h (length_le_goLen host)
      · exact h
    have hne : host ≠ [] := by
      intro e
      rw [e] at hlen
      simp [goLen] at hlen
    simp [Connect, hne, hlen]
  · intro hne hlen hport
    have hlen2 : ¬ 253 < goLen host := by omega
    have hport2 : port < 1 ∨ port > 65535 := hport
    simp [Connect, hne, hlen2, hport2]

/-- C7 at an empty host, at a host of 254 bytes, and at ports 0, 65536 and -1. -/
theorem Connect_validation_witness :
    Connect {} {} [] 23 [] = ⟨{}, {}, Exit.ret (some "host cannot be empty".toList)⟩ ∧
    Connect {} {} (List.replicate 254 'a') 23 [] =
      ⟨{}, {}, Exit.ret (some "host exceeds maximum length of 253 characters".toList)⟩ ∧
    Connect {} {} "localhost".toList 0 [] =
      ⟨{}, {}, Exit.ret (some "port must be between 1 and 65535, got 0".toList)⟩ ∧
    Connect {} {} "localhost".toList 65536 [] =
      ⟨{}, {}, Exit.ret (some "port must be between 1 and 65535, got 65536".toList)⟩ ∧
    Connect {} {} "localhost".toList (-1) [] =
      ⟨{}, {}, Exit.ret (some "port must be between 1 and 65535, got -1".toList)⟩ :=
  ⟨(Connect_validation {} {} [] 23 []).1 rfl,
    (Connect_validation {} {} (List.replicate 254 'a') 23 []).2.1
      (Or.inl (by rw [List.length_replicate]; omega)),
    (Connect_validation {} {} "localhost".toList 0 []).2.2 (by decide) (by decide)
      (Or.inl (by decide)),
    (Connect_validation {} {} "localhost".toList 65536 []).2.2 (by decide) (by decide)
      (Or.inr (by decide)),
    (Connect_validation {} {} "localhost".toList (-1) []).2.2 (by decide) (by decide)
      (Or.inl (by decide))⟩

/-- C7 as stated fails at the empty host with port 0: the port is outside
[1,65535], yet the error is the one of the host, which does not contain the text
of the port error. -/
theorem Connect_empty_host_bad_port :
    ((0 : Int) < 1 ∨ 65535 < (0 : Int)) ∧
    Connect {} {} [] 0 [] = ⟨{}, {}, Exit.ret (some "host cannot be empty".toList)⟩ ∧
    Contains "host cannot be empty".toList "port must be between 1 and 65535".toList
      = false := by
  decide

/-- C8, as the code has it: with a host and a port that pass their checks, a
supplied timeout above 300 makes `Connect` fail with the timeout error, the client
and the world being the ones given (no process is started); a supplied timeout of
0 or less is replaced by the default, so the call runs as if none had been given;
and the default is 30. -/
theorem Connect_timeout (c : Client) (w : World) (host : GoString) (port t : Int)
    (rest : List Int) (hhost : host ≠ []) (hlen : goLen host ≤ 253)
    (hport : 1 ≤ port ∧ port ≤ 65535) :
    (300 < t →
      Connect c w host port (t :: rest) =
        ⟨c, w, Exit.ret (some ("timeout must be between 1 and 300 seconds".toList ++
          ", got ".toList ++ fmtInt t))⟩) ∧
    (t ≤ 0 → connectTimeoutSec (t :: rest) = 30 ∧
      Connect c w host port (t :: rest) = Connect c w host port []) ∧
    connectTimeoutSec [] = 30 := by
  have hlen2 : ¬ 253 < goLen host := by omega
  have hport2 : ¬ (port < 1 ∨ port > 65535) := by omega
  refine ⟨?_, ?_, rfl⟩
  · intro ht
    have h0 : t > 0 := by omega
    have h1 : t < 1 ∨ t > 300 := Or.inr ht
    simp [Connect, hhost, hlen2, hport2, connectTimeoutSec, h0, h1]
  · intro ht
    have h0 : ¬ t > 0 := by omega
    have hsec : connectTimeoutSec (t :: rest) = 30 := by
      simp [connectTimeoutSec, h0]
    refine ⟨hsec, ?_⟩
    have hnil : connectTimeoutSec [] = 30 := rfl
    simp only [Connect, hsec, hnil]

/-- C8 at the timeouts 301, 0 and -5 for `localhost:23`. -/
theorem Connect_timeout_witness :
    Connect {} {} "localhost".toList 23 [301] =
      ⟨{}, {}, Exit.ret (some "timeout must be between 1 and 300 seconds, got 301".toList)⟩ ∧
    Connect {} {} "localhost".toList 23 [0] = Connect {} {} "localhost".toList 23 [] ∧
    Connect {} {} "localhost".toList 23 [-5] = Connect {} {} "localhost".toList 23 [] :=
  ⟨(Connect_timeout {} {} "localhost".toList 23 301 [] (by decide) (by decide)
      (by decide)).1 (by decide),
    ((Connect_timeout {} {} "localhost".toList 23 0 [] (by decide) (by decide)
      (by decide)).2.1 (by decide)).2,
    ((Connect_timeout {} {} "localhost".toList 23 (-5) [] (by decide) (by decide)
      (by decide)).2.1 (by decide)).2⟩

/-- C8 as stated fails at the timeouts 0 and -5: both lie outside [1,300], yet
`Connect` starts the process, sends the command and succeeds. -/
theorem Connect_nonpositive_timeout_accepted :
    Connect {} { out := "ok\n".toList } "localhost".toList 23 [0] =
      ⟨{ started with connected := true },
        { written := "Connect(localhost:23)\n".toList, reads := 1, commands := 1,
          spawns := 1 },
        Exit.ret none⟩ ∧
    Connect {} { out := "ok\n".toList } "localhost".toList 23 [-5] =
      ⟨{ started with connected := true },
        { written := "Connect(localhost:23)\n".toList, reads := 1, commands := 1,
          spawns := 1 },
        Exit.ret none⟩ := by
  decide

/-- C9, as the code has it: on every client and in every world, `MoveTo` outside
the ranges returns the row error, or the column error when the row is in range,
the client and the world are the ones given, and nothing is sent. On a client that
holds the handle and the input pipe, and whose pipe takes the write, `MoveTo`
writes something if and only if the row is in [1,24] and the column in [1,80], and
what it writes is the one line `MoveCursor(row-1,col-1)`, in decimal. -/
theorem MoveTo_transmits (c : Client) (w : World) (row col : Int) :
    (row < 1 ∨ 24 < row →
      MoveTo c w row col =
        ⟨c, w, Exit.ret (some ("row must be between 1 and 24".toList ++ ", got ".toList ++
          fmtInt row))⟩) ∧
    (1 ≤ row ∧ row ≤ 24 → col < 1 ∨ 80 < col →
      MoveTo c w row col =
        ⟨c, w, Exit.ret (some ("column must be between 1 and 80".toList ++
          ", got ".toList ++ fmtInt col))⟩) ∧
    (¬ ((1 ≤ row ∧ row ≤ 24) ∧ (1 ≤ col ∧ col ≤ 80)) →
      sent w (MoveTo c w row col) = []) ∧
    (c.cmd.isSome = true → c.stdin = true → w.writeErr = none →
      (sent w (MoveTo c w row col) ≠ [] ↔ (1 ≤ row ∧ row ≤ 24) ∧ (1 ≤ col ∧ col ≤ 80)) ∧
      ((1 ≤ row ∧ row ≤ 24) ∧ (1 ≤ col ∧ col ≤ 80) →
        sent w (MoveTo c w row col) =
          "MoveCursor(".toList ++ fmtInt (row - 1) ++ ",".toList ++ fmtInt (col - 1) ++
            ")".toList ++ ['\n'])) := by
  have hrowErr : row < 1 ∨ 24 < row →
      MoveTo c w row col =
        ⟨c, w, Exit.ret (some ("row must be between 1 and 24".toList ++ ", got ".toList ++
          fmtInt row))⟩ := by
    intro h
    have h2 : row < 1 ∨ row > 24 := h
    simp [MoveTo, h2]
  have hcolErr : 1 ≤ row ∧ row ≤ 24 → col < 1 ∨ 80 < col →
      MoveTo c w row col =
        ⟨c, w, Exit.ret (some ("column must be between 1 and 80".toList ++
          ", got ".toList ++ fmtInt col))⟩ := by
    intro hr h
    have h1 : ¬ (row < 1 ∨ row > 24) := by omega
    have h2 : col < 1 ∨ col > 80 := h
    simp [MoveTo, h1, h2]
  have hnone : ¬ ((1 ≤ row ∧ row ≤ 24) ∧ (1 ≤ col ∧ col ≤ 80)) →
      sent w (MoveTo c w row col) = [] := by
    intro hout
    by_cases hr : row < 1 ∨ 24 < row
    · rw [hrowErr hr]; simp [sent]
    · rw [hcolErr (by omega) (by omega)]; simp [sent]
  refine ⟨hrowErr, hcolErr, hnone, ?_⟩
  intro hcmd hin hwrite
  have hsent : (1 ≤ row ∧ row ≤ 24) ∧ (1 ≤ col ∧ col ≤ 80) →
      sent w (MoveTo c w row col) =
        "MoveCursor(".toList ++ fmtInt (row - 1) ++ ",".toList ++ fmtInt (col - 1) ++
          ")".toList ++ ['\n'] := by
    intro h
    have h1 : ¬ (row < 1 ∨ row > 24) := by omega
    have h2 : ¬ (col < 1 ∨ col > 80) := by omega
    simp only [MoveTo, h1, h2, if_false]
    rw [sent_sendCommand c w _ hcmd hin hwrite]
    rfl
  refine ⟨⟨?_, ?_⟩, hsent⟩
  · intro hne
    by_contra hout
    exact hne (hnone hout)
  · intro h
    rw [hsent h]
    simp

/-- C9 at the positions of the tests on the zero client, (0,1), (25,1), (1,0) and
(1,81), all refused with nothing sent, and on a started client at (24,80), sent as
`MoveCursor(23,79)`. -/
theorem MoveTo_transmits_witness :
    MoveTo {} {} 0 1 =
      ⟨{}, {}, Exit.ret (some "row must be between 1 and 24, got 0".toList)⟩ ∧
    MoveTo {} {} 25 1 =
      ⟨{}, {}, Exit.ret (some "row must be between 1 and 24, got 25".toList)⟩ ∧
    MoveTo {} {} 1 0 =
      ⟨{}, {}, Exit.ret (some "column must be between 1 and 80, got 0".toList)⟩ ∧
    MoveTo {} {} 1 81 =
      ⟨{}, {}, Exit.ret (some "column must be between 1 and 80, got 81".toList)⟩ ∧
    sent { out := "ok\n".toList } (MoveTo started { out := "ok\n".toList } 0 1) = [] ∧
    sent { out := "ok\n".toList } (MoveTo started { out := "ok\n".toList } 24 80) =
      "MoveCursor(23,79)\n".toList :=
  ⟨(MoveTo_transmits {} {} 0 1).1 (by decide),
    (MoveTo_transmits {} {} 25 1).1 (by decide),
    (MoveTo_transmits {} {} 1 0).2.1 (by decide) (by decide),
    (MoveTo_transmits {} {} 1 81).2.1 (by decide) (by decide),
    (MoveTo_transmits started { out := "ok\n".toList } 0 1).2.2.1 (by decide),
    ((MoveTo_transmits started { out := "ok\n".toList } 24 80).2.2.2 rfl rfl rfl).2
      (by decide)⟩

/-- C9 as stated fails on the zero client of the tests: row 1 and column 1 are in
range, yet `MoveTo` writes nothing, for `sendCommand` refuses a client that holds
no process handle. -/
theorem MoveTo_not_started_sends_nothing :
    ¬ (sent {} (MoveTo {} {} 1 1) ≠ [] ↔
        ((1 : Int) ≤ 1 ∧ (1 : Int) ≤ 24) ∧ ((1 : Int) ≤ 1 ∧ (1 : Int) ≤ 80)) := by
  decide

/-- C10: a function key outside [1,24] makes `Pf` return the error
`PF key must be between 1 and 24` (followed by the value it got), an attention key
outside [1,3] makes `Pa` return `PA key must be between 1 and 3` (likewise); in
both cases the client and the world are the ones given, so no command is sent. -/
theorem Pf_Pa_validation (c : Client) (w : World) (key : Int) :
    (key < 1 ∨ 24 < key →
      Pf c w key =
        ⟨c, w, Exit.ret (some ("PF key must be between 1 and 24".toList ++ ", got ".toList ++
          fmtInt key))⟩) ∧
    (key < 1 ∨ 3 < key →
      Pa c w key =
        ⟨c, w, Exit.ret (some ("PA key must be between 1 and 3".toList ++ ", got ".toList ++
          fmtInt key))⟩) := by
  constructor
  · intro h
    have h2 : key < 1 ∨ key > 24 := h
    simp [Pf, h2]
  · intro h
    have h2 : key < 1 ∨ key > 3 := h
    simp [Pa, h2]

/-- C10 at the keys of the tests: 0, 25 and -1 for `Pf`, 0, 4 and -1 for `Pa`, on
a started client with a reply waiting. -/
theorem Pf_Pa_validation_witness :
    Pf started { out := "ok\n".toList } 0 =
      ⟨started, { out := "ok\n".toList },
        Exit.ret (some "PF key must be between 1 and 24, got 0".toList)⟩ ∧
    Pf started { out := "ok\n".toList } 25 =
      ⟨started, { out := "ok\n".toList },
        Exit.ret (some "PF key must be between 1 and 24, got 25".toList)⟩ ∧
    Pf {} {} (-1) = ⟨{}, {}, Exit.ret (some "PF key must be between 1 and 24, got -1".toList)⟩ ∧
    Pa started { out := "ok\n".toList } 0 =
      ⟨started, { out := "ok\n".toList },
        Exit.ret (some "PA key must be between 1 and 3, got 0".toList)⟩ ∧
    Pa started { out := "ok\n".toList } 4 =
      ⟨started, { out := "ok\n".toList },
        Exit.ret (some "PA key must be between 1 and 3, got 4".toList)⟩ ∧
    Pa {} {} (-1) = ⟨{}, {}, Exit.ret (some "PA key must be between 1 and 3, got -1".toList)⟩ :=
  ⟨(Pf_Pa_validation started { out := "ok\n".toList } 0).1 (by decide),
    (Pf_Pa_validation started { out := "ok\n".toList } 25).1 (by decide),
    (Pf_Pa_validation {} {} (-1)).1 (by decide),
    (Pf_Pa_validation started { out := "ok\n".toList } 0).2 (by decide),
    (Pf_Pa_validation started { out := "ok\n".toList } 4).2 (by decide),
    (Pf_Pa_validation {} {} (-1)).2 (by decide)⟩

/-! ## Framing of the other commands -/

theorem digitChar_ne_newline : ∀ n < 16, Nat.digitChar n ≠ '\n' := by
  decide

theorem toDigitsCore_no_newline : ∀ (fuel n : Nat) (acc : List Char), '\n' ∉ acc →
    '\n' ∉ Nat.toDigitsCore 10 fuel n acc := by
  intro fuel
  induction fuel with
  | zero => intro n acc h; simpa [Nat.toDigitsCore] using h
  | succ fuel ih =>
    intro n acc h
    have hd := digitChar_ne_newline (n % 10) (by omega)
    have hcons : '\n' ∉ Nat.digitChar (n % 10) :: acc := by
      simp only [List.mem_cons, not_or]
      exact ⟨fun e => hd e.symm, h⟩
    rw [Nat.toDigitsCore]
    split
    · exact hcons
    · exact ih _ _ hcons

theorem fmtInt_no_newline (i : Int) : '\n' ∉ fmtInt i := by
  cases i with
  | ofNat n => exact toDigitsCore_no_newline _ _ [] (by simp)
  | negSucc n =>
    simp only [fmtInt, List.mem_cons, not_or]
    exact ⟨by decide, toDigitsCore_no_newline _ _ [] (by simp)⟩

theorem lowerhex_ne_newline (n i : Nat) : lowerhex n i ≠ '\n' :=
  digitChar_ne_newline _ (Nat.mod_lt _ (by omega))

theorem not_mem_ite {p : Prop} [Decidable p] {a b : GoString} (ch : Char)
    (ha : p → ch ∉ a) (hb : ¬ p → ch ∉ b) : ch ∉ (if p then a else b) := by
  by_cases h : p
  · rw [if_pos h]; exact ha h
  · rw [if_neg h]; exact hb h

theorem hexDigits_no_newline (n k : Nat) (pre : GoString) (hpre : '\n' ∉ pre) :
    '\n' ∉ pre ++ (List.range k).reverse.map (lowerhex n) := by
  intro hmem
  rcases List.mem_append.1 hmem with h | h
  · exact hpre h
  · obtain ⟨i, _, hi⟩ := List.mem_map.1 h
    exact lowerhex_ne_newline n i hi

theorem appendEscapedRune_no_newline (table : Char → Bool) (r : Char) :
    '\n' ∉ appendEscapedRune table r := by
  have hx := lowerhex_ne_newline r.toNat
  unfold appendEscapedRune
  refine not_mem_ite _ (fun h => ?_) (fun _ => not_mem_ite _ (fun h => ?_) (fun _ => ?_))
  · rcases h with h | h <;> rw [h] <;> decide
  · have hr : r ≠ '\n' := by
      intro e
      have hp : IsPrint table '\n' = false := by
        unfold IsPrint
        rw [if_pos (by decide), if_neg (by decide), if_neg (by decide)]
      rw [e, hp] at h
      exact absurd h (by decide)
    intro hmem
    exact hr (List.mem_singleton.1 hmem).symm
  · refine not_mem_ite _ (fun _ => by decide) (fun _ => ?_)
    refine not_mem_ite _ (fun _ => by decide) (fun _ => ?_)
    refine not_mem_ite _ (fun _ => by decide) (fun _ => ?_)
    refine not_mem_ite _ (fun _ => by decide) (fun _ => ?_)
    refine not_mem_ite _ (fun _ => by decide) (fun _ => ?_)
    refine not_mem_ite _ (fun _ => by decide) (fun _ => ?_)
    refine not_mem_ite _ (fun _ => by decide) (fun _ => ?_)
    refine not_mem_ite _ (fun _ => ?_) (fun _ => not_mem_ite _ (fun _ => ?_) (fun _ => ?_))
    · intro hmem
      simp only [List.mem_cons, List.not_mem_nil, or_false] at hmem
      rcases hmem with h | h | h | h
      · exact absurd h (by decide)
      · exact absurd h (by decide)
      · exact hx 1 h.symm
      · exact hx 0 h.symm
    · exact hexDigits_no_newline _ 4 _ (by decide)
    · exact hexDigits_no_newline _ 8 _ (by decide)

theorem Quote_no_newline (table : Char → Bool) (s : GoString) : '\n' ∉ Quote table s := by
  intro hmem
  unfold Quote at hmem
  rcases List.mem_cons.1 hmem with h | h
  · exact absurd h (by decide)
  · rcases List.mem_append.1 h with h | h
    · obtain ⟨l, hl, hin⟩ := List.mem_flatten.1 h
      obtain ⟨r, _, rfl⟩ := List.mem_map.1 hl
      exact appendEscapedRune_no_newline table r hin
    · exact absurd (List.mem_singleton.1 h) (by decide)

theorem sent_sendCommand_raw (c : Client) (w : World) (command : GoString)
    (hcmd : c.cmd.isSome = true) (hin : c.stdin = true) (hwrite : w.writeErr = none) :
    sent w (sendCommand c w command) = command ++ ['\n'] := by
  simp [sent, sendCommand_written, hcmd, hin, hwrite]

theorem oneLine_of_no_newline (cmd : GoString) (h : '\n' ∉ cmd) : oneLine (cmd ++ ['\n']) :=
  ⟨cmd, h, rfl⟩

theorem no_newline_append {a b : GoString} (ha : '\n' ∉ a) (hb : '\n' ∉ b) :
    '\n' ∉ a ++ b := by
  intro h
  rcases List.mem_append.1 h with h | h
  · exact ha h
  · exact hb h

/-- The command of `Connect` holds a newline exactly when the host does. -/
theorem connectCommand_newline (host : GoString) (port : Int) :
    '\n' ∈ connectCommand host port ↔ '\n' ∈ host := by
  constructor
  · intro h
    by_contra hhost
    exact no_newline_append (no_newline_append (no_newline_append (no_newline_append
      (by decide) hhost) (by decide)) (fmtInt_no_newline port)) (by decide) h
  · intro h
    simp [connectCommand, h]

/-- Apart from `Connect`, every single-command operation writes one protocol line
once its argument has passed validation: on a client that holds the handle and
the input pipe, and whose pipe takes the write, what is written is a text without
newline followed by one newline. -/
theorem commands_one_line (table : Char → Bool) (c : Client) (w : World)
    (hcmd : c.cmd.isSome = true) (hin : c.stdin = true) (hwrite : w.writeErr = none) :
    (∀ text : GoString, goLen text ≤ 1920 → oneLine (sent w (String table c w text))) ∧
    (∀ key : Int, 1 ≤ key ∧ key ≤ 24 → oneLine (sent w (Pf c w key))) ∧
    (∀ key : Int, 1 ≤ key ∧ key ≤ 3 → oneLine (sent w (Pa c w key))) ∧
    (∀ row col : Int, (1 ≤ row ∧ row ≤ 24) ∧ (1 ≤ col ∧ col ≤ 80) →
      oneLine (sent w (MoveTo c w row col))) ∧
    (∀ timeout : List Int, oneLine (sent w (WaitForField c w timeout))) ∧
    oneLine (sent w (Enter c w)) ∧ oneLine (sent w (Tab c w)) ∧
    oneLine (sent w (BackTab c w)) ∧ oneLine (sent w (Home c w)) ∧
    oneLine (sent w (Clear c w)) ∧ oneLine (sent w (GetScreenText c w)) := by
  refine ⟨?_, ?_, ?_, ?_, ?_, ?_, ?_, ?_, ?_, ?_, ?_⟩
  · intro text h
    have h1 : ¬ goLen text > 1920 := by omega
    simp only [String, h1, if_false]
    rw [sent_sendCommand c w _ hcmd hin hwrite]
    exact oneLine_of_no_newline _ (no_newline_append (no_newline_append (by decide)
      (Quote_no_newline table text)) (by decide))
  · intro key h
    have h1 : ¬ (key < 1 ∨ key > 24) := by omega
    simp only [Pf, h1, if_false]
    rw [sent_sendCommand c w _ hcmd hin hwrite]
    exact oneLine_of_no_newline _ (no_newline_append (no_newline_append (by decide)
      (fmtInt_no_newline key)) (by decide))
  · intro key h
    have h1 : ¬ (key < 1 ∨ key > 3) := by omega
    simp only [Pa, h1, if_false]
    rw [sent_sendCommand c w _ hcmd hin hwrite]
    exact oneLine_of_no_newline _ (no_newline_append (no_newline_append (by decide)
      (fmtInt_no_newline key)) (by decide))
  · intro row col h
    have h1 : ¬ (row < 1 ∨ row > 24) := by omega
    have h2 : ¬ (col < 1 ∨ col > 80) := by omega
    simp only [MoveTo, h1, h2, if_false]
    rw [sent_sendCommand c w _ hcmd hin hwrite]
    exact oneLine_of_no_newline _ (no_newline_append (no_newline_append (no_newline_append
      (no_newline_append (by decide) (fmtInt_no_newline _)) (by decide))
      (fmtInt_no_newline _)) (by decide))
  · intro timeout
    simp only [WaitForField]
    rw [sent_sendCommand c w _ hcmd hin hwrite]
    exact oneLine_of_no_newline _ (no_newline_append (no_newline_append (by decide)
      (fmtInt_no_newline _)) (by decide))
  · rw [Enter, sent_sendCommand c w _ hcmd hin hwrite]
    exact oneLine_of_no_newline _ (by decide)
  · rw [Tab, sent_sendCommand c w _ hcmd hin hwrite]
    exact oneLine_of_no_newline _ (by decide)
  · rw [BackTab, sent_sendCommand c w _ hcmd hin hwrite]
    exact oneLine_of_no_newline _ (by decide)
  · rw [Home, sent_sendCommand c w _ hcmd hin hwrite]
    exact oneLine_of_no_newline _ (by decide)
  · rw [Clear, sent_sendCommand c w _ hcmd hin hwrite]
    exact oneLine_of_no_newline _ (by decide)
  · rw [GetScreenText, sent_sendCommand_raw c w _ hcmd hin hwrite]
    exact oneLine_of_no_newline _ (by decide)

/-! ## Text length, teardown and failed starts -/

/-- C11: a text of more than 1920 bytes (so any text of more than 1920 characters)
makes `String` and its alias `Type` return the error
`text exceeds maximum length of 1920 characters`, the client and the world being
the ones given, so no command is sent; and `Type` gives the result of `String` for
every text. -/
theorem String_length_validation (table : Char → Bool) (c : Client) (w : World)
    (text : GoString) :
    (1920 < text.length ∨ 1920 < goLen text →
      String table c w text =
        ⟨c, w, Exit.ret (some "text exceeds maximum length of 1920 characters".toList)⟩ ∧
      TypeText table c w text =
        ⟨c, w, Exit.ret (some "text exceeds maximum length of 1920 characters".toList)⟩) ∧
    TypeText table c w text = String table c w text := by
  refine ⟨?_, rfl⟩
  intro h
  have hlen : goLen text > 1920 := by
    rcases h with h | h
    · exact Nat.lt_of_lt_of_le h (length_le_goLen text)
    · exact h
  simp [TypeText, String, hlen]

/-- C11 at the text of 1921 bytes of the tests, on a started client with a reply
waiting. -/
theorem String_length_validation_witness :
    String (fun _ => true) started { out := "ok\n".toList } (List.replicate 1921 'a') =
      ⟨started, { out := "ok\n".toList },
        Exit.ret (some "text exceeds maximum length of 1920 characters".toList)⟩ ∧
    TypeText (fun _ => true) started { out := "ok\n".toList } (List.replicate 1921 'a') =
      ⟨started, { out := "ok\n".toList },
        Exit.ret (some "text exceeds maximum length of 1920 characters".toList)⟩ :=
  (String_length_validation (fun _ => true) started { out := "ok\n".toList }
    (List.replicate 1921 'a')).1 (Or.inl (by rw [List.length_replicate]; omega))

/-- C16: on a client whose `connected` flag is false, `Disconnect` returns success
and the client and the world are the ones given: no command is sent and no process
is killed or waited on. -/
theorem Disconnect_not_connected (c : Client) (w : World) (h : c.connected = false) :
    Disconnect c w = ⟨c, w, Exit.ret none⟩ := by
  simp [Disconnect, h]

/-- C16 on a client that holds a running process but is not connected. -/
theorem Disconnect_not_connected_witness :
    Disconnect started { out := "ok\nok\n".toList } =
      ⟨started, { out := "ok\nok\n".toList }, Exit.ret none⟩ :=
  Disconnect_not_connected started { out := "ok\nok\n".toList } rfl

/-- C17: whatever the client and the world (so whatever `Close`, `Kill` and `Wait`
report), `cleanup` returns with the handle cleared and `connected` false, the other
fields kept. A second run leaves the client as the first did; it kills and waits on
nothing, and only repeats the `Close` of the input pipe when one is held. On a
client without handle nothing is killed or waited on, and when it holds no input
pipe either, the world is untouched. -/
theorem cleanup_resets (c : Client) (w : World) :
    (cleanup c w).exit = Exit.ret () ∧
    (cleanup c w).client = { c with cmd := none, connected := false } ∧
    (cleanup (cleanup c w).client (cleanup c w).world).client = (cleanup c w).client ∧
    (cleanup (cleanup c w).client (cleanup c w).world).world =
      (if c.stdin = true then
        { (cleanup c w).world with closes := (cleanup c w).world.closes + 1 }
      else (cleanup c w).world) ∧
    (c.cmd = none → (cleanup c w).world.kills = w.kills ∧
      (cleanup c w).world.waits = w.waits) ∧
    (c.cmd = none → c.stdin = false → (cleanup c w).world = w) := by
  refine ⟨rfl, rfl, rfl, ?_, ?_, ?_⟩
  · simp [cleanup]
  · intro h
    cases hin : c.stdin <;> simp [cleanup, h, hin]
  · intro h hin
    simp [cleanup, h, hin]

/-- C17 on a connected client, with failing `Close`, `Kill` and `Wait`, and on the
zero client. -/
theorem cleanup_resets_witness :
    (cleanup { ready with connected := true }
        { closeErr := some "closed".toList, killErr := some "done".toList,
          waitErr := some "gone".toList }).client =
      { vu := true, cmd := none, stdin := true, stdout := true, connected := false } ∧
    ((cleanup {} { out := "ok\n".toList }).world.kills = 0 ∧
      (cleanup {} { out := "ok\n".toList }).world.waits = 0) ∧
    (cleanup {} { out := "ok\n".toList }).world = { out := "ok\n".toList } :=
  ⟨(cleanup_resets { ready with connected := true }
      { closeErr := some "closed".toList, killErr := some "done".toList,
        waitErr := some "gone".toList }).2.1,
    (cleanup_resets {} { out := "ok\n".toList }).2.2.2.2.1 rfl,
    (cleanup_resets {} { out := "ok\n".toList }).2.2.2.2.2 rfl rfl⟩

/-- When `startS3270` reports an error on a client without handle, the client
holds a handle afterwards. -/
theorem startS3270_error_keeps_handle (c : Client) (w : World) (e : GoError)
    (hcmd : c.cmd = none) (herr : (startS3270 c w).exit = Exit.ret (some e)) :
    (startS3270 c w).client.cmd = some { process := false } := by
  unfold startS3270 at herr ⊢
  rw [hcmd] at herr ⊢
  cases h1 : w.stdinPipeErr with
  | some e1 => simp
  | none =>
    cases h2 : w.stdoutPipeErr with
    | some e2 => simp
    | none =>
      cases h3 : w.startErr with
      | some e3 => simp
      | none => simp [h1, h2, h3] at herr

/-- C19: when `StdinPipe` fails, `startS3270` returns the error and yet leaves the
handle recorded, made before the pipes; a following `sendCommand` then panics on
the nil input pipe instead of reporting `s3270 not started`, and a following
`startS3270` returns success without spawning anything. The same holds when
`StdoutPipe` or `Start` fails: the handle stays, and `startS3270` is a no-op. -/
theorem startS3270_failure_leaves_handle :
    startS3270 {} { stdinPipeErr := some "too many open files".toList } =
      ⟨{ cmd := some { process := false } },
        { stdinPipeErr := some "too many open files".toList, commands := 1 },
        Exit.ret (some "failed to create stdin pipe: too many open files".toList)⟩ ∧
    sendCommand { cmd := some { process := false } } { out := "ok\n".toList } "Test()".toList =
      ⟨{ cmd := some { process := false } }, { out := "ok\n".toList }, Exit.panic⟩ ∧
    startS3270 { cmd := some { process := false } } {} =
      ⟨{ cmd := some { process := false } }, {}, Exit.ret none⟩ ∧
    (startS3270 {} { stdoutPipeErr := some "too many open files".toList }).client =
      { cmd := some { process := false }, stdin := true } ∧
    (startS3270 {} { startErr := some "s3270 not found".toList }).client =
      { cmd := some { process := false }, stdin := true, stdout := true } ∧
    startS3270 { cmd := some { process := false }, stdin := true, stdout := true } {} =
      ⟨{ cmd := some { process := false }, stdin := true, stdout := true }, {},
        Exit.ret none⟩ := by
  decide

/-! ## Screenshot paths -/

theorem cleanElems_skip (rooted : Bool) (e : GoString) (es : List GoString) (ups : Nat)
    (kept : List GoString) (h : e = [] ∨ e = ['.']) :
    cleanElems rooted (e :: es) ups kept = cleanElems rooted es ups kept := by
  simp [cleanElems, h]

theorem cleanElems_dotdot (rooted : Bool) (es : List GoString) (ups : Nat)
    (kept : List GoString) :
    cleanElems rooted (['.', '.'] :: es) ups kept =
      match kept with
      | _ :: kept1 => cleanElems rooted es ups kept1
      | [] => if rooted = true then cleanElems rooted es ups [] else cleanElems rooted es (ups + 1) [] := by
  have hne2 : (['.', '.'] : GoString) ≠ ['.'] := by decide
  simp [cleanElems]

theorem cleanElems_name (rooted : Bool) (e : GoString) (es : List GoString) (ups : Nat)
    (kept : List GoString) (h1 : ¬ (e = [] ∨ e = ['.'])) (h2 : e ≠ ['.', '.']) :
    cleanElems rooted (e :: es) ups kept = cleanElems rooted es ups (e :: kept) := by
  simp [cleanElems, h1, h2]

theorem cleanElems_ups_le (rooted : Bool) (es : List GoString) :
    ∀ (ups : Nat) (kept : List GoString), ups ≤ (cleanElems rooted es ups kept).1 := by
  induction es with
  | nil => intro ups kept; simp [cleanElems]
  | cons e es ih =>
    intro ups kept
    by_cases h1 : e = [] ∨ e = ['.']
    · rw [cleanElems_skip rooted e es ups kept h1]
      exact ih _ _
    · by_cases h2 : e = ['.', '.']
      · rw [h2, cleanElems_dotdot]
        cases kept with
        | nil =>
          cases rooted with
          | true => exact ih _ _
          | false => exact Nat.le_trans (Nat.le_succ ups) (ih _ _)
        | cons k kept1 => exact ih _ _
      · rw [cleanElems_name rooted e es ups kept h1 h2]
        exact ih _ _

theorem Join_cons_prefix (sep : Char) (x : GoString) (ys : List GoString) :
    ∃ tail : GoString, Join sep (x :: ys) = x ++ tail := by
  cases ys with
  | nil => exact ⟨[], by simp [Join]⟩
  | cons y ys => exact ⟨sep :: Join sep (y :: ys), by simp [Join]⟩

theorem Contains_dotdot_prefix (x : GoString) : Contains ('.' :: '.' :: x) "..".toList = true := by
  simp [Contains]

/-- A relative path that begins with a `..` element keeps it through `Clean`. -/
theorem Clean_leading_dotdot (rest : GoString) (h : rest = [] ∨ rest.head? = some '/') :
    Contains (Clean ('.' :: '.' :: rest)) "..".toList = true := by
  have hsplit : ∃ es, Split '/' ('.' :: '.' :: rest) = ['.', '.'] :: es := by
    rcases h with h | h
    · exact ⟨[], by rw [h]; decide⟩
    · cases rest with
      | nil => simp at h
      | cons a rest1 =>
        simp only [List.head?_cons, Option.some.injEq] at h
        rw [h]
        refine ⟨Split '/' rest1, ?_⟩
        have h1 : ('.' : Char) ≠ '/' := by decide
        simp [Split, h1]
  obtain ⟨es, hes⟩ := hsplit
  have hups := cleanElems_ups_le false es 1 []
  have hclean : cleanElems false (['.', '.'] :: es) 0 [] = cleanElems false es 1 [] := by
    rw [cleanElems_dotdot]
    simp
  obtain ⟨k, hk⟩ : ∃ k, (cleanElems false es 1 []).1 = k + 1 :=
    ⟨(cleanElems false es 1 []).1 - 1, by omega⟩
  have hd : decide (('.' : Char) = '/') = false := by decide
  unfold Clean
  simp only [hes, List.head?_cons, Option.some.injEq, hd, hclean, hk, List.replicate_succ,
    List.cons_append, Bool.false_eq_true, if_false]
  obtain ⟨tail, ht⟩ := Join_cons_prefix '/' ['.', '.']
    (List.replicate k ['.', '.'] ++ (cleanElems false es 1 []).2.reverse)
  rw [ht]
  simp [Contains]

/-- C12, as the code has it: an empty path gives `path cannot be empty`, and a path
whose cleaned form (`filepath.Clean`) still holds `..` gives
`path cannot contain parent directory references`, as does every relative path
that begins with a `..` element; in each case the client and the world are the
ones given: the screen is not fetched, no directory is made, no file written. -/
theorem Screenshot_path_validation (c : Client) (w : World) (path : GoString) :
    (path = [] →
      Screenshot c w path = ⟨c, w, Exit.ret (some "path cannot be empty".toList)⟩) ∧
    (path ≠ [] → Contains (Clean path) "..".toList = true →
      Screenshot c w path =
        ⟨c, w, Exit.ret (some "path cannot contain parent directory references".toList)⟩) ∧
    (∀ rest : GoString, path = '.' :: '.' :: rest → rest = [] ∨ rest.head? = some '/' →
      Screenshot c w path =
        ⟨c, w, Exit.ret (some "path cannot contain parent directory references".toList)⟩) := by
  have h2 : path ≠ [] → Contains (Clean path) "..".toList = true →
      Screenshot c w path =
        ⟨c, w, Exit.ret (some "path cannot contain parent directory references".toList)⟩ := by
    intro hne hc
    unfold Screenshot
    rw [if_neg hne]
    simp only [hc, if_true]
  refine ⟨?_, h2, ?_⟩
  · intro h
    simp [Screenshot, h]
  · intro rest hp hrest
    refine h2 (by rw [hp]; simp) ?_
    rw [hp]
    exact Clean_leading_dotdot rest hrest

/-- C12 at the paths of the tests, on a started client with a screen waiting. -/
theorem Screenshot_path_validation_witness :
    Screenshot started { out := "data: X\nok\n".toList } [] =
      ⟨started, { out := "data: X\nok\n".toList },
        Exit.ret (some "path cannot be empty".toList)⟩ ∧
    Screenshot started { out := "data: X\nok\n".toList }
        "screenshots/../../../etc/passwd".toList =
      ⟨started, { out := "data: X\nok\n".toList },
        Exit.ret (some "path cannot contain parent directory references".toList)⟩ ∧
    Screenshot started { out := "data: X\nok\n".toList } "../../../etc/passwd".toList =
      ⟨started, { out := "data: X\nok\n".toList },
        Exit.ret (some "path cannot contain parent directory references".toList)⟩ :=
  ⟨(Screenshot_path_validation started { out := "data: X\nok\n".toList } []).1 rfl,
    (Screenshot_path_validation started { out := "data: X\nok\n".toList }
      "screenshots/../../../etc/passwd".toList).2.1 (by decide) (by decide),
    (Screenshot_path_validation started { out := "data: X\nok\n".toList }
      "../../../etc/passwd".toList).2.2 "/../../etc/passwd".toList rfl (Or.inr rfl)⟩

/-- C12 as stated fails at `shots/../b`: the path holds a `..` element, yet
`Screenshot` fetches the screen and writes it to the file `b`, for `filepath.Clean`
has cancelled `shots/..` before the check. -/
theorem Screenshot_inner_dotdot_accepted :
    "..".toList ∈ Split '/' "shots/../b".toList ∧
    Screenshot started { out := "data: X\nok\n".toList } "shots/../b".toList =
      ⟨started,
        { written := "Ascii()\n".toList, reads := 2, files := [("b".toList, "X".toList)] },
        Exit.ret none⟩ := by
  decide

/-! ## The polling wait -/

/-- The loop of `sendCommand` touches only the unread output and the read count. -/
theorem readLoop_world (c : Client) (command : GoString) :
    ∀ (fuel : Nat) (w : World) (result : GoString),
      ∃ (out2 : GoString) (reads2 : Nat),
        (readLoop c command fuel w result).world = { w with out := out2, reads := reads2 } := by
  intro fuel
  induction fuel with
  | zero => intro w result; exact ⟨w.out, w.reads, rfl⟩
  | succ fuel ih =>
    intro w result
    rw [readLoop]
    cases hrs : readString '\n' w.out with
    | none => simp only; split <;> exact ⟨[], w.reads + 1, rfl⟩
    | some q =>
      obtain ⟨raw, rest⟩ := q
      simp only
      split
      · exact ⟨rest, w.reads + 1, rfl⟩
      · split
        · exact ⟨rest, w.reads + 1, rfl⟩
        · split
          · obtain ⟨o, r, h⟩ := ih { w with out := rest, reads := w.reads + 1 } _
            exact ⟨o, r, h⟩
          · obtain ⟨o, r, h⟩ := ih { w with out := rest, reads := w.reads + 1 } _
            exact ⟨o, r, h⟩

/-- The method `sendCommand` touches only what was written, the unread output and
the read count. -/
theorem sendCommand_world (c : Client) (w : World) (command : GoString) :
    ∃ (written2 out2 : GoString) (reads2 : Nat),
      (sendCommand c w command).world =
        { w with written := written2, out := out2, reads := reads2 } := by
  cases hc : c.cmd with
  | none =>
    refine ⟨w.written, w.out, w.reads, ?_⟩
    show (sendCommand c w command).world = w
    simp [sendCommand, hc]
  | some handle =>
    cases hin : c.stdin with
    | false =>
      refine ⟨w.written, w.out, w.reads, ?_⟩
      show (sendCommand c w command).world = w
      simp [sendCommand, hc, hin]
    | true =>
      rcases Option.eq_none_or_eq_some w.writeErr with hw | ⟨e, hw⟩
      · cases hout : c.stdout with
        | false =>
          refine ⟨w.written ++ command ++ ['\n'], w.out, w.reads, ?_⟩
          simp [sendCommand, hc, hin, hw, hout]
        | true =>
          rw [sendCommand_started c w command (by simp [hc]) hin hout hw]
          obtain ⟨o, r, h⟩ := readLoop_world c command (w.out.length + 1)
            { w with written := w.written ++ command ++ ['\n'] } []
          exact ⟨w.written ++ command ++ ['\n'], o, r, h⟩
      · refine ⟨w.written, w.out, w.reads, ?_⟩
        show (sendCommand c w command).world = w
        simp [sendCommand, hc, hin, hw]

theorem Contains_iff_substring (s sub : GoString) : Contains s sub = true ↔ sub <:+: s := by
  induction s with
  | nil =>
    cases sub <;> simp [Contains]
  | cons a s ih =>
    rw [Contains, Bool.or_eq_true, ih, List.isPrefixOf_iff_prefix, List.infix_cons_iff]

/-- A screen fetch that reads a well-formed reply returns its screen text. -/
theorem GetScreenText_reply (c : Client) (w : World) (r : Reply) (rest : GoString)
    (hcmd : c.cmd.isSome = true) (hin : c.stdin = true) (hout : c.stdout = true)
    (hwrite : w.writeErr = none) (hstream : w.out = r.bytes ++ rest) (hgood : r.good) :
    GetScreenText c w =
      ⟨c, afterExchange w "Ascii()".toList (r.raws.length + 1) rest,
        Exit.ret (r.screen, none)⟩ := by
  obtain ⟨hnl, hterm, hoknl, hok⟩ := hgood
  have hstream2 : w.out = frame r.raws ++ (r.okRaw ++ '\n' :: rest) := by
    rw [hstream, Reply.bytes]; simp
  rw [GetScreenText, sendCommand_started c w _ hcmd hin hout hwrite, hstream2, fuel_split]
  rw [readLoop_ok c _ r.raws r.okRaw rest _ _ rfl hnl hoknl hterm hok]
  simp [afterExchange, hstream2, Reply.screen]

theorem ctxDone_eq (w : World) : ctxDone w = cancelledBy w w.now := rfl

/-- A turn of the wait loop that fetches a screen without the text goes on after
the sleep. -/
theorem waitLoop_miss (c : Client) (w : World) (text : GoString) (deadline : Int)
    (fuel : Nat) (r : Reply) (rest : GoString)
    (hcmd : c.cmd.isSome = true) (hin : c.stdin = true) (hout : c.stdout = true)
    (hwrite : w.writeErr = none) (hstream : w.out = r.bytes ++ rest) (hgood : r.good)
    (hdl : w.now < deadline) (hctx : ctxDone w = false)
    (hmiss : Contains r.screen text = false) :
    waitLoop text deadline (fuel + 1) c w =
      waitLoop text deadline fuel c (sleep100ms (afterFetch w r)) := by
  rw [waitLoop, if_pos hdl, hctx, if_neg (by decide),
    GetScreenText_reply c w r rest hcmd hin hout hwrite hstream hgood]
  simp only [Out.andThen, hmiss, afterFetch, hstream, List.drop_left]
  rfl

/-- A turn of the wait loop that fetches a screen with the text returns it. -/
theorem waitLoop_hit (c : Client) (w : World) (text : GoString) (deadline : Int)
    (fuel : Nat) (r : Reply) (rest : GoString)
    (hcmd : c.cmd.isSome = true) (hin : c.stdin = true) (hout : c.stdout = true)
    (hwrite : w.writeErr = none) (hstream : w.out = r.bytes ++ rest) (hgood : r.good)
    (hdl : w.now < deadline) (hctx : ctxDone w = false)
    (hfound : Contains r.screen text = true) :
    waitLoop text deadline (fuel + 1) c w =
      ⟨c, afterFetch w r, Exit.ret (r.screen, none)⟩ := by
  rw [waitLoop, if_pos hdl, hctx, if_neg (by decide),
    GetScreenText_reply c w r rest hcmd hin hout hwrite hstream hgood]
  simp only [Out.andThen, hfound, afterFetch, hstream, List.drop_left]
  rfl

/-- A turn of the wait loop that finds the context done returns its error and
fetches nothing. -/
theorem waitLoop_cancelled (c : Client) (w : World) (text : GoString) (deadline : Int)
    (fuel : Nat) (hdl : w.now < deadline) (hctx : ctxDone w = true) :
    waitLoop text deadline (fuel + 1) c w = ⟨c, w, Exit.ret ([], some w.ctxErr)⟩ := by
  rw [waitLoop, if_pos hdl, hctx, if_pos rfl]

/-- Once the deadline has passed the loop is left with the timeout error, whatever
the context. -/
theorem waitLoop_timeout (c : Client) (w : World) (text : GoString) (deadline : Int)
    (fuel : Nat) (hdl : ¬ w.now < deadline) :
    waitLoop text deadline (fuel + 1) c w =
      ⟨c, w, Exit.ret ([], some ("timeout waiting for text: ".toList ++ text))⟩ := by
  rw [waitLoop, if_neg hdl]

theorem afterMisses_env (reps : List Reply) :
    ∀ w : World, (afterMisses w reps).writeErr = w.writeErr ∧
      (afterMisses w reps).cancelAt = w.cancelAt ∧
      (afterMisses w reps).ctxErr = w.ctxErr ∧
      (afterMisses w reps).now = startTime reps.length w.now w.latency ∧
      (afterMisses w reps).latency = w.latency.drop reps.length ∧
      (afterMisses w reps).written =
        w.written ++ (List.replicate reps.length "Ascii()\n".toList).flatten := by
  induction reps with
  | nil => intro w; simp [afterMisses, startTime]
  | cons r rs ih =>
    intro w
    obtain ⟨h1, h2, h3, h4, h5, h6⟩ := ih (sleep100ms (afterFetch w r))
    refine ⟨?_, ?_, ?_, ?_, ?_, ?_⟩
    · rw [afterMisses, h1]; rfl
    · rw [afterMisses, h2]; rfl
    · rw [afterMisses, h3]; rfl
    · rw [afterMisses, h4]; rfl
    · rw [afterMisses, h5]
      show List.drop rs.length w.latency.tail = _
      simp
    · rw [afterMisses, h6]
      show (w.written ++ "Ascii()".toList ++ ['\n']) ++ _ = _
      simp [List.replicate_succ]

theorem afterMisses_out (reps : List Reply) :
    ∀ (w : World) (rest : GoString), w.out = (reps.map Reply.bytes).flatten ++ rest →
      (afterMisses w reps).out = rest := by
  induction reps with
  | nil => intro w rest h; simpa [afterMisses] using h
  | cons r rs ih =>
    intro w rest h
    rw [afterMisses]
    apply ih
    show List.drop r.bytes.length w.out = _
    rw [h]
    simp

theorem cancelledBy_env (w w2 : World) (t : Int) (h : w2.cancelAt = w.cancelAt) :
    cancelledBy w2 t = cancelledBy w t := by
  simp [cancelledBy, h]

/-- The wait loop over a run of turns each of which begins before the deadline,
with the context not yet done, and fetches a screen without the text. -/
theorem waitLoop_misses (c : Client) (text : GoString) (deadline : Int)
    (hcmd : c.cmd.isSome = true) (hin : c.stdin = true) (hout : c.stdout = true)
    (reps : List Reply) :
    ∀ (w : World) (fuel : Nat) (rest : GoString),
      w.writeErr = none →
      w.out = (reps.map Reply.bytes).flatten ++ rest →
      (∀ r ∈ reps, r.good ∧ Contains r.screen text = false) →
      (∀ j < reps.length, startTime j w.now w.latency < deadline ∧
        cancelledBy w (startTime j w.now w.latency) = false) →
      waitLoop text deadline (reps.length + fuel) c w =
        waitLoop text deadline fuel c (afterMisses w reps) := by
  induction reps with
  | nil => intro w fuel rest _ _ _ _; simp [afterMisses]
  | cons r rs ih =>
    intro w fuel rest hwrite hstream hreps htime
    have hfuel : (r :: rs).length + fuel = (rs.length + fuel) + 1 := by
      simp only [List.length_cons]; omega
    have hstream1 : w.out = r.bytes ++ ((rs.map Reply.bytes).flatten ++ rest) := by
      rw [hstream]; simp
    obtain ⟨hgood, hmiss⟩ := hreps r (by simp)
    obtain ⟨hdl, hctx⟩ := htime 0 (by simp)
    rw [hfuel, waitLoop_miss c w text deadline _ r _ hcmd hin hout hwrite hstream1 hgood
      hdl hctx hmiss, afterMisses]
    apply ih _ fuel rest
    · exact hwrite
    · show List.drop r.bytes.length w.out = _
      rw [hstream1]; simp
    · intro x hx
      exact hreps x (by simp [hx])
    · intro j hj
      have := htime (j + 1) (by simp only [List.length_cons]; omega)
      rw [cancelledBy_env w (sleep100ms (afterFetch w r)) _ rfl]
      exact this

theorem startTime_ge (k : Nat) : ∀ (now : Int) (lats : List Nat),
    now + (k : Int) * 100000000 ≤ startTime k now lats := by
  induction k with
  | zero => intro now lats; simp [startTime]
  | succ k ih =>
    intro now lats
    have h := ih (now + (lats.headD 0 : Nat) + 100000000) lats.tail
    rw [startTime]
    push_cast at h ⊢
    omega

theorem startTime_mono (j : Nat) : ∀ (k : Nat) (now : Int) (lats : List Nat), j ≤ k →
    startTime j now lats ≤ startTime k now lats := by
  induction j with
  | zero =>
    intro k now lats _
    have h := startTime_ge k now lats
    have hk : (0 : Int) ≤ (k : Int) * 100000000 := by positivity
    rw [startTime]
    omega
  | succ j ih =>
    intro k now lats hjk
    cases k with
    | zero => omega
    | succ k =>
      rw [startTime, startTime]
      exact ih k _ _ (by omega)

theorem cancelledBy_mono (w : World) (s t : Int) (hst : s ≤ t)
    (h : cancelledBy w t = false) : cancelledBy w s = false := by
  unfold cancelledBy at h ⊢
  cases hc : w.cancelAt with
  | none => rfl
  | some x =>
    rw [hc] at h
    simp only [decide_eq_false_iff_not, not_le] at h ⊢
    omega

/-- The result of the wait loop, when it is a success, holds the text. -/
theorem waitLoop_result_contains (text : GoString) (deadline : Int) :
    ∀ (fuel : Nat) (c : Client) (w : World) (s : GoString),
      (waitLoop text deadline fuel c w).exit = Exit.ret (s, none) →
      Contains s text = true := by
  intro fuel
  induction fuel with
  | zero => intro c w s h; simp [waitLoop] at h
  | succ fuel ih =>
    intro c w s h
    rw [waitLoop] at h
    by_cases hdl : w.now < deadline
    · rw [if_pos hdl] at h
      by_cases hctx : ctxDone w = true
      · rw [if_pos hctx] at h
        simp at h
      · rw [if_neg hctx] at h
        unfold Out.andThen at h
        cases hg : (GetScreenText c w).exit with
        | ret r =>
          rw [hg] at h
          simp only at h
          cases hr : r.2 with
          | some e => rw [hr] at h; simp at h
          | none =>
            rw [hr] at h
            simp only at h
            by_cases hfound : Contains r.1 text = true
            · rw [if_pos hfound] at h
              simp only [Exit.ret.injEq, Prod.mk.injEq, and_true] at h
              rw [← h]
              exact hfound
            · rw [if_neg hfound] at h
              exact ih _ _ s h
        | panic => rw [hg] at h; simp at h
        | hang => rw [hg] at h; simp at h
        | stuck => rw [hg] at h; simp at h
    · rw [if_neg hdl] at h
      simp at h

theorem sendCommand_now (c : Client) (w : World) (command : GoString) :
    (sendCommand c w command).world.now = w.now ∧
    (sendCommand c w command).world.latency = w.latency := by
  obtain ⟨a, b, n, h⟩ := sendCommand_world c w command
  rw [h]
  exact ⟨rfl, rfl⟩

/-- The wait loop never uses up its fuel when it is given more than the
nanoseconds left before the deadline: every turn that goes on moves the clock by
at least 100 ms. -/
theorem waitLoop_not_stuck (text : GoString) (deadline : Int) :
    ∀ (fuel : Nat) (c : Client) (w : World), (deadline - w.now).toNat < fuel →
      (waitLoop text deadline fuel c w).exit ≠ Exit.stuck := by
  intro fuel
  induction fuel with
  | zero => intro c w h; omega
  | succ fuel ih =>
    intro c w hfuel
    rw [waitLoop]
    by_cases hdl : w.now < deadline
    · rw [if_pos hdl]
      by_cases hctx : ctxDone w = true
      · rw [if_pos hctx]; simp
      · rw [if_neg hctx]
        unfold Out.andThen
        have hns := sendCommand_not_stuck c w "Ascii()".toList
        have hnow := sendCommand_now c w "Ascii()".toList
        cases hg : (GetScreenText c w).exit with
        | ret r =>
          simp only
          cases hr : r.2 with
          | some e => simp
          | none =>
            simp only
            by_cases hfound : Contains r.1 text = true
            · rw [if_pos hfound]; simp
            · rw [if_neg hfound]
              apply ih
              have h1 : (sleep100ms (tick (GetScreenText c w).world)).now =
                  w.now + (w.latency.headD 0 : Nat) + 100000000 := by
                show (sendCommand c w "Ascii()".toList).world.now +
                  (((sendCommand c w "Ascii()".toList).world.latency.headD 0 : Nat) : Int) +
                    100000000 = _
                rw [hnow.1, hnow.2]
              rw [h1]
              omega
        | panic => simp
        | hang => simp
        | stuck => exact absurd hg hns
    · rw [if_neg hdl]; simp

/-- The method `WaitForTextAndReturn` returns, panics or blocks in a read: the fuel
of the model is never exhausted. -/
theorem WaitForTextAndReturn_not_stuck (c : Client) (w : World) (text : GoString)
    (timeout : List Int) : (WaitForTextAndReturn c w text timeout).exit ≠ Exit.stuck := by
  unfold WaitForTextAndReturn
  by_cases hvu : c.vu = false
  · rw [if_pos hvu]; simp
  · rw [if_neg hvu]
    exact waitLoop_not_stuck text _ _ c w (by omega)

theorem not_Contains_of_not_substring (s sub : GoString) (h : ¬ sub <:+: s) :
    Contains s sub = false := by
  cases hc : Contains s sub with
  | false => rfl
  | true => exact absurd ((Contains_iff_substring s sub).1 hc) h

/-- The wait, from its entry, over a run of turns that each begin before the
deadline with the context not done and fetch a screen without the text: it goes on
as the loop from the world after these turns, with fuel left. -/
theorem WaitForTextAndReturn_misses (c : Client) (w : World) (text : GoString)
    (timeout : List Int) (misses : List Reply) (rest : GoString)
    (hvu : c.vu = true) (hcmd : c.cmd.isSome = true) (hin : c.stdin = true)
    (hout : c.stdout = true) (hwrite : w.writeErr = none)
    (hstream : w.out = (misses.map Reply.bytes).flatten ++ rest)
    (hgood : ∀ r ∈ misses, r.good) (hmiss : ∀ r ∈ misses, ¬ text <:+: r.screen)
    (hearlier : ∀ j < misses.length,
      startTime j w.now w.latency < waitDeadline w timeout ∧
        cancelledBy w (startTime j w.now w.latency) = false)
    (hfuel : misses.length ≤ (waitDeadline w timeout - w.now).toNat) :
    WaitForTextAndReturn c w text timeout =
      waitLoop text (waitDeadline w timeout)
        ((waitDeadline w timeout - w.now).toNat - misses.length + 1) c
        (afterMisses w misses) := by
  unfold WaitForTextAndReturn
  rw [if_neg (by simp [hvu])]
  have hsplit : (waitDeadline w timeout - w.now).toNat + 1 =
      misses.length + ((waitDeadline w timeout - w.now).toNat - misses.length + 1) := by
    omega
  rw [hsplit]
  exact waitLoop_misses c text _ hcmd hin hout misses w _ rest hwrite hstream
    (fun r hr => ⟨hgood r hr, not_Contains_of_not_substring _ _ (hmiss r hr)⟩) hearlier

theorem fuel_of_startTime (w : World) (deadline : Int) (k : Nat)
    (h : startTime k w.now w.latency < deadline) : k ≤ (deadline - w.now).toNat := by
  have h1 := startTime_ge k w.now w.latency
  omega

theorem sent_afterMisses (w : World) (misses : List Reply) :
    (afterMisses w misses).written.drop w.written.length =
      (List.replicate misses.length "Ascii()\n".toList).flatten := by
  rw [(afterMisses_env misses w).2.2.2.2.2]
  simp

/-- C14: on a client with a VU that holds the handle and both pipes, with a
working input pipe, let the output stream script a sequence of screens fetched
without error, of which the `n`-th is the first to hold the text as a substring,
and let the `n`-th fetch begin before the deadline with the context not cancelled.
Then `WaitForTextAndReturn` returns that `n`-th screen with no error, having sent
`Ascii()` exactly `n` times and left the rest of the stream unread. And whatever
the client and the world, a result returned without error holds the text. -/
theorem WaitForTextAndReturn_first_match (c : Client) (w : World) (text : GoString)
    (timeout : List Int) (misses : List Reply) (hit : Reply) (rest : GoString)
    (hvu : c.vu = true) (hcmd : c.cmd.isSome = true) (hin : c.stdin = true)
    (hout : c.stdout = true) (hwrite : w.writeErr = none)
    (hstream : w.out = (misses.map Reply.bytes).flatten ++ (hit.bytes ++ rest))
    (hgood : ∀ r ∈ misses, r.good) (hhit : hit.good)
    (hmiss : ∀ r ∈ misses, ¬ text <:+: r.screen) (hfound : text <:+: hit.screen)
    (hdl : startTime misses.length w.now w.latency < waitDeadline w timeout)
    (hctx : cancelledBy w (startTime misses.length w.now w.latency) = false) :
    (WaitForTextAndReturn c w text timeout).exit = Exit.ret (hit.screen, none) ∧
    (WaitForTextAndReturn c w text timeout).client = c ∧
    sent w (WaitForTextAndReturn c w text timeout) =
      (List.replicate (misses.length + 1) "Ascii()\n".toList).flatten ∧
    (WaitForTextAndReturn c w text timeout).world.out = rest ∧
    (∀ (c2 : Client) (w2 : World) (text2 : GoString) (timeout2 : List Int) (s : GoString),
      (WaitForTextAndReturn c2 w2 text2 timeout2).exit = Exit.ret (s, none) →
        text2 <:+: s) := by
  have hearlier : ∀ j < misses.length,
      startTime j w.now w.latency < waitDeadline w timeout ∧
        cancelledBy w (startTime j w.now w.latency) = false := by
    intro j hj
    have hle := startTime_mono j misses.length w.now w.latency (by omega)
    exact ⟨by omega, cancelledBy_mono w _ _ hle hctx⟩
  have henv := afterMisses_env misses w
  have hrun := WaitForTextAndReturn_misses c w text timeout misses (hit.bytes ++ rest) hvu
    hcmd hin hout hwrite hstream hgood hmiss hearlier (fuel_of_startTime w _ _ hdl)
  have hout2 := afterMisses_out misses w (hit.bytes ++ rest) hstream
  have hres := waitLoop_hit c (afterMisses w misses) text (waitDeadline w timeout)
    ((waitDeadline w timeout - w.now).toNat - misses.length) hit rest hcmd hin hout
    (by rw [henv.1]; exact hwrite) hout2 hhit
    (by rw [henv.2.2.2.1]; exact hdl)
    (by rw [ctxDone_eq, henv.2.2.2.1, cancelledBy_env w _ _ henv.2.1]; exact hctx)
    ((Contains_iff_substring _ _).2 hfound)
  rw [hrun, hres]
  refine ⟨rfl, rfl, ?_, ?_, ?_⟩
  · show (((afterMisses w misses).written ++ "Ascii()".toList ++ ['\n']).drop
      w.written.length) = _
    rw [henv.2.2.2.2.2, List.replicate_succ']
    simp
  · show List.drop hit.bytes.length (afterMisses w misses).out = rest
    rw [hout2]
    simp
  · intro c2 w2 text2 timeout2 s h
    unfold WaitForTextAndReturn at h
    by_cases hv : c2.vu = false
    · rw [if_pos hv] at h; simp at h
    · rw [if_neg hv] at h
      exact (Contains_iff_substring _ _).1 (waitLoop_result_contains _ _ _ _ _ _ h)

/-- C14 with three scripted screens, the third being the first with `READY`; the
fetches take 5 ms each and the timeout is 2 seconds. -/
theorem WaitForTextAndReturn_first_match_witness :
    (WaitForTextAndReturn ready
        { out := "data: LOGON\nok\ndata: WAIT\ndata: ...\nok\ndata: READY\nok\nmore".toList,
          latency := [5000000, 5000000, 5000000] } "READY".toList [2]).exit =
      Exit.ret ("READY".toList, none) ∧
    sent
        { out := "data: LOGON\nok\ndata: WAIT\ndata: ...\nok\ndata: READY\nok\nmore".toList,
          latency := [5000000, 5000000, 5000000] }
        (WaitForTextAndReturn ready
          { out := "data: LOGON\nok\ndata: WAIT\ndata: ...\nok\ndata: READY\nok\nmore".toList,
            latency := [5000000, 5000000, 5000000] } "READY".toList [2]) =
      "Ascii()\nAscii()\nAscii()\n".toList ∧
    (WaitForTextAndReturn ready
        { out := "data: LOGON\nok\ndata: WAIT\ndata: ...\nok\ndata: READY\nok\nmore".toList,
          latency := [5000000, 5000000, 5000000] } "READY".toList [2]).world.out =
      "more".toList :=
  have h := WaitForTextAndReturn_first_match ready
    { out := "data: LOGON\nok\ndata: WAIT\ndata: ...\nok\ndata: READY\nok\nmore".toList,
      latency := [5000000, 5000000, 5000000] } "READY".toList [2]
    [⟨["data: LOGON".toList], "ok".toList⟩,
      ⟨["data: WAIT".toList, "data: ...".toList], "ok".toList⟩]
    ⟨["data: READY".toList], "ok".toList⟩ "more".toList
    rfl rfl rfl rfl rfl (by decide) (by decide) (by decide) (by decide) (by decide)
    (by decide) (by decide)
  ⟨h.1, h.2.2.1, h.2.2.2.1⟩

/-- C13, as the code has it: let the wait have gone through any number of turns
that each fetched a screen without the text, and let the cancellation signal have
fired by the time the next turn is about to begin. If the deadline has not passed,
`WaitForTextAndReturn` returns the cancellation error without another fetch,
whatever the unread output holds, even a screen with the text. If the deadline has
passed, the loop is left and the timeout error is returned instead. -/
theorem WaitForTextAndReturn_cancelled (c : Client) (w : World) (text : GoString)
    (timeout : List Int) (misses : List Reply) (rest : GoString)
    (hvu : c.vu = true) (hcmd : c.cmd.isSome = true) (hin : c.stdin = true)
    (hout : c.stdout = true) (hwrite : w.writeErr = none)
    (hstream : w.out = (misses.map Reply.bytes).flatten ++ rest)
    (hgood : ∀ r ∈ misses, r.good) (hmiss : ∀ r ∈ misses, ¬ text <:+: r.screen)
    (hearlier : ∀ j < misses.length,
      startTime j w.now w.latency < waitDeadline w timeout ∧
        cancelledBy w (startTime j w.now w.latency) = false)
    (hfired : cancelledBy w (startTime misses.length w.now w.latency) = true) :
    (startTime misses.length w.now w.latency < waitDeadline w timeout →
      WaitForTextAndReturn c w text timeout =
        ⟨c, afterMisses w misses, Exit.ret ([], some w.ctxErr)⟩) ∧
    (¬ startTime misses.length w.now w.latency < waitDeadline w timeout →
      WaitForTextAndReturn c w text timeout =
        ⟨c, afterMisses w misses,
          Exit.ret ([], some ("timeout waiting for text: ".toList ++ text))⟩) ∧
    (afterMisses w misses).out = rest ∧
    sent w (⟨c, afterMisses w misses, Exit.ret ()⟩ : Out Unit) =
      (List.replicate misses.length "Ascii()\n".toList).flatten := by
  have henv := afterMisses_env misses w
  have hfuel : misses.length ≤ (waitDeadline w timeout - w.now).toNat := by
    cases hm : misses.length with
    | zero => omega
    | succ k =>
      have h1 := (hearlier k (by omega)).1
      have h2 := startTime_ge k w.now w.latency
      omega
  have hrun := WaitForTextAndReturn_misses c w text timeout misses rest hvu hcmd hin hout
    hwrite hstream hgood hmiss hearlier hfuel
  refine ⟨?_, ?_, afterMisses_out misses w rest hstream, sent_afterMisses w misses⟩
  · intro hdl
    rw [hrun, waitLoop_cancelled c _ text _ _ (by rw [henv.2.2.2.1]; exact hdl)
      (by rw [ctxDone_eq, henv.2.2.2.1, cancelledBy_env w _ _ henv.2.1]; exact hfired),
      henv.2.2.1]
  · intro hdl
    rw [hrun, waitLoop_timeout c _ text _ _ (by rw [henv.2.2.2.1]; exact hdl)]

/-- C13 after one turn without the text: the fetch takes 5 ms, the context is
cancelled 50 ms after the start, the next screen holds the text, and the timeout is
2 seconds: the cancellation error is returned and the second screen is left
unread. -/
theorem WaitForTextAndReturn_cancelled_witness :
    WaitForTextAndReturn ready
        { out := "data: WAIT\nok\ndata: READY\nok\n".toList, latency := [5000000],
          cancelAt := some 50000000 } "READY".toList [2] =
      ⟨ready,
        { written := "Ascii()\n".toList, out := "data: READY\nok\n".toList, reads := 2,
          now := 105000000, cancelAt := some 50000000 },
        Exit.ret ([], some "context canceled".toList)⟩ :=
  (WaitForTextAndReturn_cancelled ready
    { out := "data: WAIT\nok\ndata: READY\nok\n".toList, latency := [5000000],
      cancelAt := some 50000000 } "READY".toList [2]
    [⟨["data: WAIT".toList], "ok".toList⟩] "data: READY\nok\n".toList
    rfl rfl rfl rfl rfl (by decide) (by decide) (by decide) (by decide) (by decide)).1
    (by decide)

/-- C13 as stated fails when the deadline has passed: with a timeout of 1 second,
a first fetch that takes 2 seconds and a cancellation after 1 second, the signal
has fired when the next turn would begin, yet the error returned is the timeout,
not the cancellation. -/
theorem WaitForTextAndReturn_timeout_beats_cancellation :
    WaitForTextAndReturn ready
        { out := "data: WAIT\nok\n".toList, latency := [2000000000],
          cancelAt := some 1000000000 } "READY".toList [1] =
      ⟨ready,
        { written := "Ascii()\n".toList, reads := 2, now := 2100000000,
          cancelAt := some 1000000000 },
        Exit.ret ([], some "timeout waiting for text: READY".toList)⟩ ∧
    ctxDone
        { written := "Ascii()\n".toList, reads := 2, now := 2100000000,
          cancelAt := some 1000000000 } = true := by
  decide

/-! ## Disconnect -/

/-- The loop of `sendCommand` never panics. -/
theorem readLoop_no_panic (c : Client) (command : GoString) :
    ∀ (fuel : Nat) (w : World) (result : GoString),
      (readLoop c command fuel w result).exit ≠ Exit.panic := by
  intro fuel
  induction fuel with
  | zero => intro w result; simp [readLoop]
  | succ fuel ih =>
    intro w result
    rw [readLoop]
    cases hrs : readString '\n' w.out with
    | none => simp only; split <;> simp
    | some q =>
      obtain ⟨raw, rest⟩ := q
      simp only
      split
      · simp
      · split
        · simp
        · split
          · exact ih _ _
          · exact ih _ _

/-- On a client whose handle, when held, comes with both pipes, `sendCommand`
returns unless it blocks in its read: it neither panics nor runs out of fuel. -/
theorem sendCommand_returns (c : Client) (w : World) (command : GoString)
    (hpipes : c.cmd.isSome = true → c.stdin = true ∧ c.stdout = true)
    (hends : (sendCommand c w command).exit ≠ Exit.hang) :
    ∃ v, (sendCommand c w command).exit = Exit.ret v := by
  have hns := sendCommand_not_stuck c w command
  have hnp : (sendCommand c w command).exit ≠ Exit.panic := by
    cases hc : c.cmd with
    | none => simp [sendCommand, hc]
    | some handle =>
      obtain ⟨hin, hout⟩ := hpipes (by simp [hc])
      rcases Option.eq_none_or_eq_some w.writeErr with hw | ⟨e, hw⟩
      · rw [sendCommand_started c w command (by simp [hc]) hin hout hw]
        exact readLoop_no_panic c command _ _ _
      · simp [sendCommand, hc, hin, hw]
  cases h : (sendCommand c w command).exit with
  | ret v => exact ⟨v, rfl⟩
  | panic => exact absurd h hnp
  | hang => exact absurd h hends
  | stuck => exact absurd h hns

theorem sendCommand_env (c : Client) (w : World) (command : GoString) :
    (sendCommand c w command).world.writeErr = w.writeErr ∧
    (sendCommand c w command).world.closes = w.closes ∧
    (sendCommand c w command).world.kills = w.kills ∧
    (sendCommand c w command).world.waits = w.waits := by
  obtain ⟨a, b, n, h⟩ := sendCommand_world c w command
  rw [h]
  exact ⟨rfl, rfl, rfl, rfl⟩

/-- What `cleanup` does to the world: nothing is written, the input pipe is closed
when one is held, and the process is killed and waited on when it was launched. -/
theorem cleanup_world (c : Client) (w : World) :
    (cleanup c w).world.written = w.written ∧
    (cleanup c w).world.closes = w.closes + (if c.stdin = true then 1 else 0) ∧
    (∀ handle : Cmd, c.cmd = some handle →
      (cleanup c w).world.kills = w.kills + (if handle.process = true then 1 else 0) ∧
      (cleanup c w).world.waits = w.waits + (if handle.process = true then 1 else 0)) := by
  refine ⟨?_, ?_, ?_⟩
  · cases hin : c.stdin <;> cases hc : c.cmd with
    | none => simp [cleanup, hin, hc]
    | some handle => cases hp : handle.process <;> simp [cleanup, hin, hc, hp]
  · cases hin : c.stdin <;> cases hc : c.cmd with
    | none => simp [cleanup, hin, hc]
    | some handle => cases hp : handle.process <;> simp [cleanup, hin, hc, hp]
  · intro handle hh
    cases hin : c.stdin <;> cases hp : handle.process <;> simp [cleanup, hin, hh, hp]

/-- On a client that holds the handle and both pipes, a command written to a
subprocess that stays alive and sends no complete line blocks in the read: the
call never returns. -/
theorem sendCommand_silent_hangs (c : Client) (w : World) (command : GoString)
    (hcmd : c.cmd.isSome = true) (hin : c.stdin = true) (hout : c.stdout = true)
    (hwrite : w.writeErr = none) (hopen : w.outOpen = true) (hsilent : '\n' ∉ w.out) :
    sendCommand c w command =
      ⟨c,
        { w with
          written := w.written ++ command ++ ['\n'], out := [], reads := w.reads + 1 },
        Exit.hang⟩ := by
  have hrs : ∀ s : GoString, '\n' ∉ s → readString '\n' s = none := by
    intro s
    induction s with
    | nil => intro _; rfl
    | cons a s ih =>
      intro h
      have ha : a ≠ '\n' := fun e => h (by simp [e])
      have hs : '\n' ∉ s := fun e => h (by simp [e])
      simp [readString, ha, ih hs]
  rw [sendCommand_started c w command hcmd hin hout hwrite, readLoop]
  simp only [hrs w.out hsilent, hopen, if_true]

/-- The loop of `sendCommand` never blocks when the subprocess has closed its
output. -/
theorem readLoop_closed_ends (c : Client) (command : GoString) :
    ∀ (fuel : Nat) (w : World) (result : GoString), w.outOpen = false →
      (readLoop c command fuel w result).exit ≠ Exit.hang := by
  intro fuel
  induction fuel with
  | zero => intro w result _; simp [readLoop]
  | succ fuel ih =>
    intro w result hclosed
    rw [readLoop]
    cases hrs : readString '\n' w.out with
    | none => simp [hclosed]
    | some q =>
      obtain ⟨raw, rest⟩ := q
      simp only
      split
      · simp
      · split
        · simp
        · split
          · exact ih _ _ hclosed
          · exact ih _ _ hclosed

/-- The method `sendCommand` never blocks when the subprocess has closed its
output, and it leaves the output as open or closed as it found it. -/
theorem sendCommand_closed_ends (c : Client) (w : World) (command : GoString)
    (hclosed : w.outOpen = false) :
    (sendCommand c w command).exit ≠ Exit.hang ∧
    (sendCommand c w command).world.outOpen = false := by
  constructor
  · unfold sendCommand
    cases hc : c.cmd with
    | none => simp
    | some handle =>
      cases hin : c.stdin with
      | false => simp
      | true =>
        cases hw : w.writeErr with
        | some e => simp
        | none =>
          cases hout : c.stdout with
          | false => simp
          | true =>
            simp only [Bool.true_eq_false, if_false]
            exact readLoop_closed_ends c command _ _ _ hclosed
  · obtain ⟨a, b, n, h⟩ := sendCommand_world c w command
    rw [h]
    exact hclosed

/-- On a connected client that holds the handle and both pipes, when neither of
the two exchanges blocks in its read, `Disconnect` returns success with the handle
cleared and `connected` false, whatever the replies, the write errors and the read
errors. The second exchange is run on the world the first one left, whatever the
first returned, and `cleanup` on the world left by the second. When the input pipe
takes writes, `Disconnect()` and then `Quit()` are written, in that order; when it
does not, nothing is written. The input pipe is closed once, and the process is
killed and waited on once when it was launched. -/
theorem Disconnect_session (c : Client) (w : World) (hconn : c.connected = true)
    (hcmd : c.cmd.isSome = true) (hin : c.stdin = true) (hout : c.stdout = true)
    (hends1 : (sendCommand c w "Disconnect()".toList).exit ≠ Exit.hang)
    (hends2 : (sendCommand c (sendCommand c w "Disconnect()".toList).world
      "Quit()".toList).exit ≠ Exit.hang) :
    (Disconnect c w).exit = Exit.ret none ∧
    (Disconnect c w).client = { c with cmd := none, connected := false } ∧
    (Disconnect c w).world =
      (cleanup c (sendCommand c (sendCommand c w "Disconnect()".toList).world
        "Quit()".toList).world).world ∧
    sent w (Disconnect c w) =
      (if w.writeErr = none then "Disconnect()\n".toList ++ "Quit()\n".toList else []) ∧
    (Disconnect c w).world.closes = w.closes + 1 ∧
    (∀ handle : Cmd, c.cmd = some handle →
      (Disconnect c w).world.kills = w.kills + (if handle.process = true then 1 else 0) ∧
      (Disconnect c w).world.waits = w.waits + (if handle.process = true then 1 else 0)) := by
  obtain ⟨v1, h1⟩ := sendCommand_returns c w "Disconnect()".toList (fun _ => ⟨hin, hout⟩)
    hends1
  have hc1 := sendCommand_client c w "Disconnect()".toList
  have he1 := sendCommand_env c w "Disconnect()".toList
  have hw1 := sendCommand_written c w "Disconnect()".toList
  obtain ⟨v2, h2⟩ := sendCommand_returns c (sendCommand c w "Disconnect()".toList).world
    "Quit()".toList (fun _ => ⟨hin, hout⟩) hends2
  have hc2 := sendCommand_client c (sendCommand c w "Disconnect()".toList).world
    "Quit()".toList
  have he2 := sendCommand_env c (sendCommand c w "Disconnect()".toList).world "Quit()".toList
  have hw2 := sendCommand_written c (sendCommand c w "Disconnect()".toList).world
    "Quit()".toList
  have hD : Disconnect c w =
      ⟨{ c with cmd := none, connected := false },
        (cleanup c (sendCommand c (sendCommand c w "Disconnect()".toList).world
          "Quit()".toList).world).world, Exit.ret none⟩ := by
    unfold Disconnect
    rw [if_neg (by simp [hconn])]
    simp only [Out.andThen, h1, hc1, h2, hc2]
    rfl
  rw [hD]
  generalize (sendCommand c (sendCommand c w "Disconnect()".toList).world
    "Quit()".toList).world = w2 at he2 hw2 ⊢
  generalize (sendCommand c w "Disconnect()".toList).world = w1 at he1 hw1 he2 hw2
  obtain ⟨hcw, hcc, hck⟩ := cleanup_world c w2
  refine ⟨rfl, rfl, rfl, ?_, ?_, ?_⟩
  · show (cleanup c w2).world.written.drop w.written.length = _
    rw [hcw, hw2, hw1, he1.1]
    by_cases hw : w.writeErr = none
    · rw [if_pos ⟨hcmd, hin, hw⟩, if_pos ⟨hcmd, hin, hw⟩, if_pos hw]
      simp
    · rw [if_neg (fun h => hw h.2.2), if_neg (fun h => hw h.2.2), if_neg hw]
      simp
  · show (cleanup c w2).world.closes = _
    rw [hcc, he2.2.1, he1.2.1, if_pos hin]
  · intro handle hh
    show (cleanup c w2).world.kills = _ ∧ (cleanup c w2).world.waits = _
    obtain ⟨hk, hwt⟩ := hck handle hh
    rw [hk, hwt, he2.2.2.1, he1.2.2.1, he2.2.2.2, he1.2.2.2]
    exact ⟨rfl, rfl⟩

/-- When the first exchange of `Disconnect` blocks, the call never returns: it
stops in the state that exchange left, with the client as it was, `Quit()` not
sent and no teardown. -/
theorem Disconnect_blocks (c : Client) (w : World) (hconn : c.connected = true)
    (hhang : (sendCommand c w "Disconnect()".toList).exit = Exit.hang) :
    Disconnect c w = ⟨c, (sendCommand c w "Disconnect()".toList).world, Exit.hang⟩ := by
  unfold Disconnect
  rw [if_neg (by simp [hconn])]
  simp only [Out.andThen, hhang, sendCommand_client]

/-! ## The connected flag -/

theorem andThen_client {α β : Type} (o : Out α) (k : Client → World → α → Out β)
    (c : Client) (ho : o.client = c) (hk : ∀ (w : World) (a : α), (k c w a).client = c) :
    (o.andThen k).client = c := by
  unfold Out.andThen
  cases h : o.exit with
  | ret a => simp only; rw [ho]; exact hk _ _
  | panic => exact ho
  | hang => exact ho
  | stuck => exact ho

theorem errOf_client (o : Out (GoString × Option GoError)) : (errOf o).client = o.client := by
  unfold errOf
  exact andThen_client o _ o.client rfl (fun _ _ => rfl)

theorem sendErr_client (c : Client) (w : World) (command : GoString) :
    (errOf (sendCommand c w command)).client = c := by
  rw [errOf_client, sendCommand_client]

theorem String_client (table : Char → Bool) (c : Client) (w : World) (text : GoString) :
    (String table c w text).client = c := by
  unfold String
  split
  · rfl
  · exact sendErr_client c w _

theorem Pf_client (c : Client) (w : World) (key : Int) : (Pf c w key).client = c := by
  unfold Pf
  split
  · rfl
  · exact sendErr_client c w _

theorem Pa_client (c : Client) (w : World) (key : Int) : (Pa c w key).client = c := by
  unfold Pa
  split
  · rfl
  · exact sendErr_client c w _

theorem MoveTo_client (c : Client) (w : World) (row col : Int) :
    (MoveTo c w row col).client = c := by
  unfold MoveTo
  split
  · rfl
  · split
    · rfl
    · exact sendErr_client c w _

theorem WaitForField_client (c : Client) (w : World) (timeout : List Int) :
    (WaitForField c w timeout).client = c :=
  sendErr_client c w _

theorem Enter_client (c : Client) (w : World) : (Enter c w).client = c :=
  sendErr_client c w _

theorem StringAt_client (table : Char → Bool) (c : Client) (w : World) (text : GoString)
    (row col : Int) : (StringAt table c w text row col).client = c := by
  unfold StringAt
  refine andThen_client _ _ c (MoveTo_client c w row col) ?_
  intro w1 err
  cases err with
  | some e => rfl
  | none => exact String_client table c w1 text

theorem SendCommand_client (table : Char → Bool) (c : Client) (w : World)
    (command : GoString) (waitForResponse : List Bool) :
    (SendCommand table c w command waitForResponse).client = c := by
  unfold SendCommand
  refine andThen_client _ _ c (String_client table c w command) ?_
  intro w1 err
  cases err with
  | some e => rfl
  | none =>
    refine andThen_client _ _ c (Enter_client c w1) ?_
    intro w2 err2
    cases err2 with
    | some e => rfl
    | none =>
      simp only
      split
      · exact WaitForField_client c w2 []
      · rfl

theorem SendPF_client (c : Client) (w : World) (key : Int) (waitForResponse : List Bool) :
    (SendPF c w key waitForResponse).client = c := by
  unfold SendPF
  refine andThen_client _ _ c (Pf_client c w key) ?_
  intro w1 err
  cases err with
  | some e => rfl
  | none =>
    simp only
    split
    · exact WaitForField_client c w1 []
    · rfl

theorem waitLoop_client (text : GoString) (deadline : Int) :
    ∀ (fuel : Nat) (c : Client) (w : World), (waitLoop text deadline fuel c w).client = c := by
  intro fuel
  induction fuel with
  | zero => intro c w; rfl
  | succ fuel ih =>
    intro c w
    rw [waitLoop]
    split
    · split
      · rfl
      · refine andThen_client _ _ c (sendCommand_client c w _) ?_
        intro w1 r
        cases hr : r.2 with
        | some e => rfl
        | none =>
          simp only
          split
          · rfl
          · exact ih c _
    · rfl

theorem WaitForTextAndReturn_client (c : Client) (w : World) (text : GoString)
    (timeout : List Int) : (WaitForTextAndReturn c w text timeout).client = c := by
  unfold WaitForTextAndReturn
  split
  · rfl
  · exact waitLoop_client _ _ _ c w

theorem Screenshot_client (c : Client) (w : World) (path : GoString) :
    (Screenshot c w path).client = c := by
  unfold Screenshot
  split
  · rfl
  · simp only
    split
    · rfl
    · refine andThen_client _ _ c (sendCommand_client c w _) ?_
      intro w1 r
      cases hr : r.2 with
      | some e => rfl
      | none =>
        simp only
        split
        · rfl
        · split
          · rfl
          · rfl

theorem PrintScreen_client (c : Client) (w : World) : (PrintScreen c w).client = c := by
  unfold PrintScreen
  refine andThen_client _ _ c (sendCommand_client c w _) ?_
  intro w1 r
  cases hr : r.2 with
  | some e => rfl
  | none => rfl

/-- Every public call other than `Connect` and `Disconnect` leaves the client as
it was. -/
theorem run_client (table : Char → Bool) (op : Op) (c : Client) (w : World)
    (hconnect : ∀ host port timeout, op ≠ Op.connect host port timeout)
    (hdisconnect : op ≠ Op.disconnect) : (op.run table c w).1 = c := by
  cases op with
  | connect host port timeout => exact absurd rfl (hconnect host port timeout)
  | disconnect => exact absurd rfl hdisconnect
  | string text => exact String_client table c w text
  | typeText text => exact String_client table c w text
  | enter => exact sendErr_client c w _
  | tab => exact sendErr_client c w _
  | backTab => exact sendErr_client c w _
  | home => exact sendErr_client c w _
  | clear => exact sendErr_client c w _
  | pf key => exact Pf_client c w key
  | pa key => exact Pa_client c w key
  | moveTo row col => exact MoveTo_client c w row col
  | stringAt text row col => exact StringAt_client table c w text row col
  | waitForField timeout => exact WaitForField_client c w timeout
  | waitForText text timeout =>
    show (errOf (WaitForTextAndReturn c w text timeout)).client = c
    rw [errOf_client]
    exact WaitForTextAndReturn_client c w text timeout
  | waitForTextAndReturn text timeout => exact WaitForTextAndReturn_client c w text timeout
  | getScreenText => exact sendCommand_client c w _
  | ascii => exact sendCommand_client c w _
  | sendCommand command waitForResponse =>
    exact SendCommand_client table c w command waitForResponse
  | sendPF key waitForResponse => exact SendPF_client c w key waitForResponse
  | isConnected => rfl
  | screenshot path => exact Screenshot_client c w path
  | printScreen => exact PrintScreen_client c w

theorem readString_some (d : Char) (s line rest : GoString)
    (h : readString d s = some (line, rest)) :
    ∃ l0 : GoString, line = l0 ++ [d] ∧ d ∉ l0 ∧ s = l0 ++ d :: rest := by
  induction s generalizing line rest with
  | nil => simp [readString] at h
  | cons a s ih =>
    rw [readString] at h
    by_cases had : a = d
    · rw [if_pos had] at h
      simp only [Option.some.injEq, Prod.mk.injEq] at h
      exact ⟨[], by simp [← h.1, had], by simp, by simp [← h.2, had]⟩
    · rw [if_neg had] at h
      cases hrs : readString d s with
      | none => rw [hrs] at h; simp at h
      | some q =>
        obtain ⟨l2, r2⟩ := q
        rw [hrs] at h
        simp only [Option.some.injEq, Prod.mk.injEq] at h
        obtain ⟨l0, h1, h2, h3⟩ := ih l2 r2 hrs
        refine ⟨a :: l0, by simp [← h.1, h1], ?_, by simp [← h.2, h3]⟩
        simp only [List.mem_cons, not_or]
        exact ⟨fun e => had e.symm, h2⟩

/-- One turn of the loop of `sendCommand` on a line it has read: it ends on `ok`,
ends with an error, or goes on with the rest of the output. -/
theorem readLoop_turn (c : Client) (command : GoString) (fuel : Nat) (w : World)
    (result raw rest : GoString) (hrs : readString '\n' w.out = some (raw, rest)) :
    (TrimRight raw "\r\n".toList = "ok".toList ∧
      readLoop c command (fuel + 1) w result =
        ⟨c, { w with out := rest, reads := w.reads + 1 },
          Exit.ret (TrimSuffix result "\n".toList, none)⟩) ∨
    (∃ e, (readLoop c command (fuel + 1) w result).exit = Exit.ret ([], some e)) ∨
    (∃ result2, readLoop c command (fuel + 1) w result =
      readLoop c command fuel { w with out := rest, reads := w.reads + 1 } result2) := by
  rw [readLoop, hrs]
  simp only
  by_cases h1 : TrimRight raw "\r\n".toList = "ok".toList
  · left
    rw [if_pos h1]
    exact ⟨h1, rfl⟩
  · right
    rw [if_neg h1]
    by_cases h2 : TrimRight raw "\r\n".toList = "error".toList ∨
        HasPrefix (TrimRight raw "\r\n".toList) "error ".toList = true
    · left
      rw [if_pos h2]
      exact ⟨_, rfl⟩
    · right
      rw [if_neg h2]
      by_cases h3 : HasPrefix (TrimRight raw "\r\n".toList) "data:".toList = true
      · rw [if_pos h3]; exact ⟨_, rfl⟩
      · rw [if_neg h3]; exact ⟨_, rfl⟩

/-- The loop of `sendCommand` returns without error only after it has read a line
that is `ok` once trimmed: the output it consumed ends with that line. -/
theorem readLoop_success_ok (c : Client) (command : GoString) :
    ∀ (fuel : Nat) (w : World) (result s : GoString),
      (readLoop c command fuel w result).exit = Exit.ret (s, none) →
      ∃ pre okRaw : GoString,
        w.out = pre ++ (okRaw ++ '\n' :: (readLoop c command fuel w result).world.out) ∧
        '\n' ∉ okRaw ∧ stripLine okRaw = "ok".toList := by
  intro fuel
  induction fuel with
  | zero => intro w result s h; simp [readLoop] at h
  | succ fuel ih =>
    intro w result s h
    cases hrs : readString '\n' w.out with
    | none =>
      rw [readLoop, hrs] at h
      simp only at h
      split at h <;> simp at h
    | some q =>
      obtain ⟨raw, rest⟩ := q
      obtain ⟨l0, hl, hnl, hs⟩ := readString_some '\n' w.out raw rest hrs
      rcases readLoop_turn c command fuel w result raw rest hrs with
        ⟨hok, heq⟩ | ⟨e, he⟩ | ⟨result2, heq⟩
      · rw [heq]
        refine ⟨[], l0, by simpa using hs, hnl, ?_⟩
        rw [← TrimRight_newline, ← hl]
        exact hok
      · rw [he] at h
        simp at h
      · rw [heq] at h ⊢
        obtain ⟨pre, okRaw, h1, h2, h3⟩ := ih _ result2 s h
        refine ⟨l0 ++ '\n' :: pre, okRaw, ?_, h2, h3⟩
        rw [hs]
        simp only [List.append_assoc, List.cons_append]
        congr 2

/-- A call of `sendCommand` returns without error only on a client that holds the
handle and both pipes, and only after it has read an `ok` line. -/
theorem sendCommand_success (c : Client) (w : World) (command s : GoString)
    (h : (sendCommand c w command).exit = Exit.ret (s, none)) :
    (c.cmd.isSome = true ∧ c.stdin = true ∧ c.stdout = true) ∧
    ∃ pre okRaw : GoString,
      w.out = pre ++ (okRaw ++ '\n' :: (sendCommand c w command).world.out) ∧
      '\n' ∉ okRaw ∧ stripLine okRaw = "ok".toList := by
  cases hc : c.cmd with
  | none => simp [sendCommand, hc] at h
  | some handle =>
    cases hin : c.stdin with
    | false => simp [sendCommand, hc, hin] at h
    | true =>
      rcases Option.eq_none_or_eq_some w.writeErr with hw | ⟨e, hw⟩
      · cases hout : c.stdout with
        | false => simp [sendCommand, hc, hin, hw, hout] at h
        | true =>
          rw [sendCommand_started c w command (by simp [hc]) hin hout hw] at h ⊢
          exact ⟨⟨rfl, rfl, rfl⟩, readLoop_success_ok c command _ _ _ s h⟩
      · simp [sendCommand, hc, hin, hw] at h

theorem startS3270_held (c : Client) (w : World) (h : c.cmd.isSome = true) :
    startS3270 c w = ⟨c, w, Exit.ret none⟩ := by
  cases hc : c.cmd with
  | none => simp [hc] at h
  | some handle => simp [startS3270, hc]

theorem startS3270_connected (c : Client) (w : World) :
    (startS3270 c w).client.connected = c.connected := by
  unfold startS3270
  cases c.cmd with
  | some handle => rfl
  | none =>
    simp only
    cases w.stdinPipeErr with
    | some e => rfl
    | none =>
      simp only
      cases w.stdoutPipeErr with
      | some e => rfl
      | none =>
        simp only
        cases w.startErr with
        | some e => rfl
        | none => rfl

theorem startS3270_returns (c : Client) (w : World) :
    ∃ err, (startS3270 c w).exit = Exit.ret err := by
  unfold startS3270
  cases c.cmd with
  | some handle => exact ⟨_, rfl⟩
  | none =>
    simp only
    cases w.stdinPipeErr with
    | some e => exact ⟨_, rfl⟩
    | none =>
      simp only
      cases w.stdoutPipeErr with
      | some e => exact ⟨_, rfl⟩
      | none =>
        simp only
        cases w.startErr with
        | some e => exact ⟨_, rfl⟩
        | none => exact ⟨_, rfl⟩

/-- The ways a call of `Connect` can end: refused by validation, failed start,
failed exchange, success, or an exchange that does not return. -/
theorem Connect_outcome (c : Client) (w : World) (host : GoString) (port : Int)
    (timeout : List Int) :
    (∃ e, Connect c w host port timeout = ⟨c, w, Exit.ret (some e)⟩) ∨
    (∃ e, Connect c w host port timeout =
      ⟨(startS3270 c w).client, (startS3270 c w).world, Exit.ret (some e)⟩) ∨
    (∃ e, Connect c w host port timeout =
      ⟨(startS3270 c w).client,
        (sendCommand (startS3270 c w).client (startS3270 c w).world
          (connectCommand host port)).world, Exit.ret (some e)⟩) ∨
    (∃ s, (sendCommand (startS3270 c w).client (startS3270 c w).world
          (connectCommand host port)).exit = Exit.ret (s, none) ∧
      Connect c w host port timeout =
        ⟨{ (startS3270 c w).client with connected := true },
          (sendCommand (startS3270 c w).client (startS3270 c w).world
            (connectCommand host port)).world, Exit.ret none⟩) ∨
    (∃ x, (x = Exit.panic ∨ x = Exit.hang ∨ x = Exit.stuck) ∧
      Connect c w host port timeout =
        ⟨(startS3270 c w).client,
          (sendCommand (startS3270 c w).client (startS3270 c w).world
            (connectCommand host port)).world, x⟩) := by
  unfold Connect
  by_cases h1 : host = []
  · left; rw [if_pos h1]; exact ⟨_, rfl⟩
  rw [if_neg h1]
  by_cases h2 : goLen host > 253
  · left; rw [if_pos h2]; exact ⟨_, rfl⟩
  rw [if_neg h2]
  by_cases h3 : port < 1 ∨ port > 65535
  · left; rw [if_pos h3]; exact ⟨_, rfl⟩
  rw [if_neg h3]
  simp only
  by_cases h4 : connectTimeoutSec timeout < 1 ∨ connectTimeoutSec timeout > 300
  · left; rw [if_pos h4]; exact ⟨_, rfl⟩
  rw [if_neg h4]
  right
  obtain ⟨err, hs⟩ := startS3270_returns c w
  have hcl := sendCommand_client (startS3270 c w).client (startS3270 c w).world
    (connectCommand host port)
  unfold Out.andThen
  rw [hs]
  simp only
  cases err with
  | some e => left; exact ⟨_, rfl⟩
  | none =>
    right
    simp only
    cases ho : (sendCommand (startS3270 c w).client (startS3270 c w).world
        (connectCommand host port)).exit with
    | ret r =>
      obtain ⟨s, e⟩ := r
      cases e with
      | some e => left; simp only [hcl]; exact ⟨_, rfl⟩
      | none => right; left; simp only [hcl]; exact ⟨s, rfl, trivial⟩
    | panic => right; right; simp only [hcl]; exact ⟨_, Or.inl rfl, rfl⟩
    | hang => right; right; simp only [hcl]; exact ⟨_, Or.inr (Or.inl rfl), rfl⟩
    | stuck => right; right; simp only [hcl]; exact ⟨_, Or.inr (Or.inr rfl), rfl⟩

theorem Disconnect_client (c : Client) (w : World) :
    (Disconnect c w).client = c ∨ (Disconnect c w).client.connected = false := by
  unfold Disconnect
  by_cases h : c.connected = false
  · left; rw [if_pos h]
  · rw [if_neg h]
    unfold Out.andThen
    have h1 := sendCommand_client c w "Disconnect()".toList
    cases (sendCommand c w "Disconnect()".toList).exit with
    | ret v1 =>
      simp only
      rw [h1]
      have h2 := sendCommand_client c (sendCommand c w "Disconnect()".toList).world
        "Quit()".toList
      cases (sendCommand c (sendCommand c w "Disconnect()".toList).world
          "Quit()".toList).exit with
      | ret v2 => right; rfl
      | panic => left; exact h2
      | hang => left; exact h2
      | stuck => left; exact h2
    | panic => left; exact h1
    | hang => left; exact h1
    | stuck => left; exact h1

/-- In every state reachable by a run of public calls, a client that is connected
holds the handle and both pipes. -/
theorem Reachable_connected_session (table : Char → Bool) :
    ∀ c : Client, Reachable table c → c.connected = true →
      c.cmd.isSome = true ∧ c.stdin = true ∧ c.stdout = true := by
  intro c hreach
  induction hreach with
  | fresh vu => intro h; simp at h
  | step op c w _ ih =>
    intro hconn
    cases op with
    | connect host port timeout =>
      change (Connect c w host port timeout).client.connected = true at hconn
      show (Connect c w host port timeout).client.cmd.isSome = true ∧
        (Connect c w host port timeout).client.stdin = true ∧
        (Connect c w host port timeout).client.stdout = true
      have hstart : c.connected = true → (startS3270 c w).client = c := by
        intro hc
        rw [startS3270_held c w (ih hc).1]
      rcases Connect_outcome c w host port timeout with
        ⟨e, h⟩ | ⟨e, h⟩ | ⟨e, h⟩ | ⟨s, hs, h⟩ | ⟨x, _, h⟩
      · rw [h] at hconn ⊢
        exact ih hconn
      · rw [h] at hconn ⊢
        simp only [startS3270_connected] at hconn
        simp only [hstart hconn]
        exact ih hconn
      · rw [h] at hconn ⊢
        simp only [startS3270_connected] at hconn
        simp only [hstart hconn]
        exact ih hconn
      · rw [h]
        exact (sendCommand_success _ _ _ s hs).1
      · rw [h] at hconn ⊢
        simp only [startS3270_connected] at hconn
        simp only [hstart hconn]
        exact ih hconn
    | disconnect =>
      change (Disconnect c w).client.connected = true at hconn
      show (Disconnect c w).client.cmd.isSome = true ∧
        (Disconnect c w).client.stdin = true ∧ (Disconnect c w).client.stdout = true
      rcases Disconnect_client c w with h | h
      · rw [h] at hconn ⊢
        exact ih hconn
      · rw [h] at hconn
        simp at hconn
    | _ =>
      rw [run_client table _ c w (by intro _ _ _ h; cases h) (by intro h; cases h)]
        at hconn ⊢
      exact ih hconn

/-- C18: in every state reachable from a fresh client by a sequential run of
public calls, `connected` is true only if the process handle is held (and both
pipes with it). A call turns `connected` from false to true only if it is a
`Connect` that returns success and whose exchange of `Connect(host:port)` returned
without error, the output consumed ending with a line that is `ok` once trimmed.
A `Connect` that returns an error leaves `connected` as it was. -/
theorem connected_flag_invariant (table : Char → Bool) :
    (∀ c : Client, Reachable table c → c.connected = true →
      c.cmd.isSome = true ∧ c.stdin = true ∧ c.stdout = true) ∧
    (∀ (op : Op) (c : Client) (w : World), c.connected = false →
      (op.run table c w).1.connected = true →
      ∃ (host : GoString) (port : Int) (timeout : List Int) (s pre okRaw : GoString),
        op = Op.connect host port timeout ∧
        (Connect c w host port timeout).exit = Exit.ret none ∧
        (sendCommand (startS3270 c w).client (startS3270 c w).world
          (connectCommand host port)).exit = Exit.ret (s, none) ∧
        (startS3270 c w).world.out =
          pre ++ (okRaw ++ '\n' :: (Connect c w host port timeout).world.out) ∧
        stripLine okRaw = "ok".toList) ∧
    (∀ (c : Client) (w : World) (host : GoString) (port : Int) (timeout : List Int)
      (e : GoError), (Connect c w host port timeout).exit = Exit.ret (some e) →
      (Connect c w host port timeout).client.connected = c.connected) := by
  refine ⟨?_, ?_, ?_⟩
  · exact Reachable_connected_session table
  · intro op c w hfalse htrue
    cases op with
    | connect host port timeout =>
      change (Connect c w host port timeout).client.connected = true at htrue
      rcases Connect_outcome c w host port timeout with
        ⟨e, h⟩ | ⟨e, h⟩ | ⟨e, h⟩ | ⟨s, hs, h⟩ | ⟨x, _, h⟩
      · rw [h] at htrue
        rw [hfalse] at htrue
        simp at htrue
      · rw [h] at htrue
        simp only [startS3270_connected, hfalse] at htrue
        simp at htrue
      · rw [h] at htrue
        simp only [startS3270_connected, hfalse] at htrue
        simp at htrue
      · obtain ⟨_, pre, okRaw, hout, _, hok⟩ := sendCommand_success _ _ _ s hs
        refine ⟨host, port, timeout, s, pre, okRaw, rfl, ?_, hs, ?_, hok⟩
        · rw [h]
        · rw [h]
          exact hout
      · rw [h] at htrue
        simp only [startS3270_connected, hfalse] at htrue
        simp at htrue
    | disconnect =>
      change (Disconnect c w).client.connected = true at htrue
      rcases Disconnect_client c w with h | h
      · rw [h, hfalse] at htrue
        simp at htrue
      · rw [h] at htrue
        simp at htrue
    | _ =>
      rw [run_client table _ c w (by intro _ _ _ h; cases h) (by intro h; cases h)] at htrue
      rw [hfalse] at htrue
      simp at htrue
  · intro c w host port timeout e hexit
    rcases Connect_outcome c w host port timeout with
      ⟨e, h⟩ | ⟨e, h⟩ | ⟨e, h⟩ | ⟨s, hs, h⟩ | ⟨x, hx, h⟩
    · rw [h]
    · rw [h]
      exact startS3270_connected c w
    · rw [h]
      exact startS3270_connected c w
    · rw [h] at hexit
      simp at hexit
    · rw [h] at hexit
      rcases hx with hx | hx | hx <;> rw [hx] at hexit <;> simp at hexit

/-- C18 on the run `Connect("localhost", 23)` answered by `ok`, then `Enter`: the
client reached is connected and holds the handle and both pipes; the `Connect` call
is the one that set the flag; and a `Connect` answered by an error leaves the flag
false. -/
theorem connected_flag_invariant_witness :
    (({ started with connected := true } : Client).cmd.isSome = true ∧
      ({ started with connected := true } : Client).stdin = true ∧
      ({ started with connected := true } : Client).stdout = true) ∧
    (Connect {} { out := "error no route\n".toList } "localhost".toList 23 []).client.connected =
      false :=
  ⟨(connected_flag_invariant (fun _ => true)).1 { started with connected := true }
      (Reachable.step Op.enter { started with connected := true } { out := "ok\n".toList }
        (Reachable.step (Op.connect "localhost".toList 23 []) {} { out := "ok\n".toList }
          (Reachable.fresh false))) rfl,
    (connected_flag_invariant (fun _ => true)).2.2 {} { out := "error no route\n".toList }
      "localhost".toList 23 []
      "failed to connect to localhost:23: s3270 error: no route (command: Connect(localhost:23))".toList
      (by decide)⟩

/-! ## PrintScreen -/

theorem fmtIntWidth_two : ∀ i < 99, (fmtIntWidth 2 ((i : Nat) + 1 : Int)).length = 2 := by
  decide

theorem goLen_single_byte (line : GoString) (h : ∀ ch ∈ line, ch.utf8Size = 1) :
    goLen line = line.length := by
  induction line with
  | nil => rfl
  | cons a l ih =>
    have h1 := h a (by simp)
    have h2 := ih (fun ch hch => h ch (by simp [hch]))
    simp only [goLen, List.map_cons, List.sum_cons, List.length_cons] at h2 ⊢
    omega

/-- The borders of `PrintScreen` are 84 characters wide, and the row of any of the
first 99 lines, when the line has at most 80 characters of one byte each, is 85
characters wide before its newline: the box is never rectangular. -/
theorem printRow_width (i : Nat) (line : GoString) (hi : i < 99)
    (hbytes : ∀ ch ∈ line, ch.utf8Size = 1) (hlen : line.length ≤ 80) :
    topBorder.length = 84 ∧ bottomBorder.length = 84 ∧
    printRow i line =
      "│".toList ++ fmtIntWidth 2 ((i : Int) + 1) ++ "│".toList ++
        (line ++ List.replicate (80 - line.length) ' ') ++ "│".toList ++ ['\n'] ∧
    (printRow i line).length = 85 + 1 := by
  have hw := fmtIntWidth_two i hi
  have hg := goLen_single_byte line hbytes
  have hpad : padLine line = line ++ List.replicate (80 - line.length) ' ' := by
    unfold padLine
    rw [hg]
    by_cases h : line.length < 80
    · rw [if_pos h]
    · rw [if_neg h]
      have : 80 - line.length = 0 := by omega
      rw [this]
      simp
  refine ⟨by decide, by decide, ?_, ?_⟩
  · unfold printRow
    rw [hpad]
    simp
  · unfold printRow
    rw [hpad]
    simp only [List.length_append, List.length_replicate, hw]
    have h1 : "│".toList.length = 1 := by decide
    have h2 : "│\n".toList.length = 2 := by decide
    rw [h1, h2]
    omega

set_option maxRecDepth 100000 in
/-- C20: for the screen `HELLO`, one line of five characters, `PrintScreen` returns
borders of 84 characters around a row of 85, so the lines of its output do not have
the same number of characters: the row is numbered and padded as claimed, but the
borders, `strings.Repeat("─", 82)` between two corners, are one character short. -/
theorem PrintScreen_not_rectangular :
    (PrintScreen started { out := "data: HELLO\nok\n".toList }).exit =
      Exit.ret
        ("┌──────────────────────────────────────────────────────────────────────────────────┐\n│ 1│HELLO                                                                           │\n└──────────────────────────────────────────────────────────────────────────────────┘".toList,
          none) ∧
    (Split '\n' (renderScreen "HELLO".toList)).map List.length = [84, 85, 84] := by
  decide

/-! ## Disconnect on a connected client -/

/-- C15, as the code has it: on every connected client reached by a run of public
calls, when neither of the two exchanges blocks in its read (as it cannot once the
subprocess has closed its output), `Disconnect` returns success whatever the
replies, the write errors and the read errors, and afterwards the handle is
cleared and `connected` is false. `Disconnect()` and then `Quit()` are written, in
that order, when the input pipe takes writes, and nothing when it does not; the
second exchange is run whatever the first returned. Then the session is torn
down: the input pipe is closed once, and the process is killed and waited on once
when it was launched. When the subprocess stays alive and sends no complete line,
the call blocks in the read of the first reply and never returns: only
`Disconnect()` is written and the client stays as it was. -/
theorem Disconnect_connected (table : Char → Bool) (c : Client) (w : World)
    (hreach : Reachable table c) (hconn : c.connected = true) :
    ((sendCommand c w "Disconnect()".toList).exit ≠ Exit.hang →
      (sendCommand c (sendCommand c w "Disconnect()".toList).world
        "Quit()".toList).exit ≠ Exit.hang →
      (Disconnect c w).exit = Exit.ret none ∧
      (Disconnect c w).client = { c with cmd := none, connected := false } ∧
      (Disconnect c w).world =
        (cleanup c (sendCommand c (sendCommand c w "Disconnect()".toList).world
          "Quit()".toList).world).world ∧
      sent w (Disconnect c w) =
        (if w.writeErr = none then "Disconnect()\n".toList ++ "Quit()\n".toList else []) ∧
      (Disconnect c w).world.closes = w.closes + 1 ∧
      (∀ handle : Cmd, c.cmd = some handle →
        (Disconnect c w).world.kills = w.kills + (if handle.process = true then 1 else 0) ∧
        (Disconnect c w).world.waits =
          w.waits + (if handle.process = true then 1 else 0))) ∧
    (w.outOpen = false →
      (sendCommand c w "Disconnect()".toList).exit ≠ Exit.hang ∧
      (sendCommand c (sendCommand c w "Disconnect()".toList).world
        "Quit()".toList).exit ≠ Exit.hang) ∧
    (w.writeErr = none → w.outOpen = true → '\n' ∉ w.out →
      Disconnect c w =
        ⟨c,
          { w with
            written := w.written ++ "Disconnect()".toList ++ ['\n'], out := [],
            reads := w.reads + 1 },
          Exit.hang⟩) := by
  obtain ⟨hcmd, hin, hout⟩ := Reachable_connected_session table c hreach hconn
  refine ⟨?_, ?_, ?_⟩
  · intro hends1 hends2
    exact Disconnect_session c w hconn hcmd hin hout hends1 hends2
  · intro hclosed
    obtain ⟨h1, h2⟩ := sendCommand_closed_ends c w "Disconnect()".toList hclosed
    exact ⟨h1, (sendCommand_closed_ends c _ "Quit()".toList h2).1⟩
  · intro hwrite hopen hsilent
    have hs := sendCommand_silent_hangs c w "Disconnect()".toList hcmd hin hout hwrite hopen
      hsilent
    rw [Disconnect_blocks c w hconn (by rw [hs]), hs]

/-- C15 on the client reached by `Connect("localhost", 23)` answered by `ok`, when
the reply to `Disconnect()` is an error and the reply to `Quit()` is `ok`: both
commands are written, the call succeeds, and the client is left without handle and
not connected. -/
theorem Disconnect_connected_witness :
    (Disconnect { ready with connected := true }
        { out := "error not connected\nok\n".toList }).exit = Exit.ret none ∧
    (Disconnect { ready with connected := true }
        { out := "error not connected\nok\n".toList }).client =
      { vu := true, cmd := none, stdin := true, stdout := true, connected := false } ∧
    sent { out := "error not connected\nok\n".toList }
        (Disconnect { ready with connected := true }
          { out := "error not connected\nok\n".toList }) =
      "Disconnect()\nQuit()\n".toList :=
  have h := (Disconnect_connected (fun _ => true) { ready with connected := true }
    { out := "error not connected\nok\n".toList }
    (Reachable.step (Op.connect "localhost".toList 23 []) { vu := true }
      { out := "ok\n".toList } (Reachable.fresh true)) rfl).1 (by decide) (by decide)
  ⟨h.1, h.2.1, h.2.2.2.1⟩

/-- C15 as stated fails when s3270 stays alive and silent: on the client reached
by `Connect("localhost", 23)` answered by `ok`, `Disconnect` writes
`Disconnect()`, blocks in the read of the reply and never returns; `Quit()` is not
written, nothing is closed or killed, and the client still holds its handle with
`connected` true. -/
theorem Disconnect_blocks_on_silent_process :
    Reachable (fun _ => true) { ready with connected := true } ∧
    Disconnect { ready with connected := true } {} =
      ⟨{ ready with connected := true },
        { written := "Disconnect()\n".toList, out := [], reads := 1 }, Exit.hang⟩ :=
  ⟨Reachable.step (Op.connect "localhost".toList 23 []) { vu := true }
      { out := "ok\n".toList } (Reachable.fresh true),
    by decide⟩

/-- After a `Connect` whose exchange is answered by an error, the process runs and
`connected` is false: `Disconnect` then returns at once and the process is neither
killed nor waited on. -/
theorem Disconnect_after_failed_Connect :
    (Connect {} { out := "error no route\n".toList } "localhost".toList 23 []).client =
      started ∧
    (Disconnect started {}).world.kills = 0 ∧ (Disconnect started {}).world.waits = 0 ∧
    (Disconnect started {}).client = started := by
  decide

end Tn3270
